import Mathlib

/-!
Verification development for the Argon syncback engine.

The Rust sources are shallowly embedded: pure functions become Lean
functions, stateful code becomes explicit state passing, machine floats are
idealized as rationals (IEEE rounding is out of scope; integer narrowing
casts keep their saturating, truncating semantics), and fallible code
returns `Except` or an explicit outcome type.  Collaborator modules whose
code is not part of the embedded sources (the reflection database contents,
the virtual filesystem, sync rules, the project-document parser, the
`verify_name`/`verify_path` helpers) are modelled from the specification as
explicit parameters, so every theorem is stated against the embedded logic
of `resolution.rs`, `middleware/data.rs`, `core/snapshot.rs` and
`core/processor/write.rs`.
-/

namespace Argon

/-- Engine property value (`rbx_dom_weak::types::Variant`), restricted to the
variants exercised by this development; floating-point components are
idealized as rationals. -/
inductive Variant where
  | enum (id : Nat)
  | bool (b : Bool)
  | float32 (n : ℚ)
  | float64 (n : ℚ)
  | int32 (n : ℤ)
  | int64 (n : ℤ)
  | string (s : String)
  | binaryString (s : String)
  | content (s : String)
  | tags (ts : List String)
  | axes (bits : Nat)
  | faces (bits : Nat)
  | vector3 (x y z : ℚ)
  deriving DecidableEq

/-- The declared value types (`rbx_reflection::VariantType`) covered here. -/
inductive VariantType where
  | axes
  | binaryString
  | bool
  | content
  | float32
  | float64
  | int32
  | int64
  | string
  | tags
  | vector3
  deriving DecidableEq

/-- Declared data type of a property (`rbx_reflection::DataType`); `other`
stands for the data types the resolver has no mapping for (the catch-all
arm of `AmbiguousValue::resolve`). -/
inductive DataType where
  | enum (enumName : String)
  | value (t : VariantType)
  | other
  deriving DecidableEq

structure PropertyDescriptor where
  dataType : DataType
  deriving DecidableEq

structure ClassDescriptor where
  properties : List (String × PropertyDescriptor)
  superclass : Option String
  deriving DecidableEq

structure EnumDescriptor where
  items : List (String × Nat)
  deriving DecidableEq

/-- Static reflection database (`rbx_reflection_database::get()`), modelled as
explicit association lists since its contents are an external data dump. -/
structure ReflectionDatabase where
  classes : List (String × ClassDescriptor)
  enums : List (String × EnumDescriptor)
  deriving DecidableEq

/-- Fuelled superclass walk of `find_descriptor` (resolution.rs): look the
property up on the class, then on its superclass chain. -/
def findDescriptorFuel (db : ReflectionDatabase) :
    Nat → String → String → Option PropertyDescriptor
  | 0, _, _ => none
  | fuel + 1, className, property =>
    match db.classes.lookup className with
    | none => none
    | some cls =>
      match cls.properties.lookup property with
      | some descriptor => some descriptor
      | none =>
        match cls.superclass with
        | none => none
        | some sup => findDescriptorFuel db fuel sup property

/-- Embedding of `find_descriptor` (resolution.rs): the superclass loop is
fuelled by the number of classes in the database, which bounds any acyclic
superclass chain. -/
def find_descriptor (db : ReflectionDatabase) (className property : String) :
    Option PropertyDescriptor :=
  findDescriptorFuel db (db.classes.length + 1) className property

/-- Loosely-typed JSON-shaped value (`AmbiguousValue` of resolution.rs),
restricted to the shapes exercised by this development. -/
inductive AmbiguousValue where
  | bool (b : Bool)
  | string (s : String)
  | stringArray (l : List String)
  | number (n : ℚ)
  | array2 (a b : ℚ)
  | array3 (a b c : ℚ)
  deriving DecidableEq

/-- Embedding of `AmbiguousValue::describe`. -/
def AmbiguousValue.describe : AmbiguousValue → String
  | .bool _ => "a bool"
  | .string _ => "a string"
  | .stringArray _ => "an array of strings"
  | .number _ => "a number"
  | .array2 _ _ => "an array of two numbers"
  | .array3 _ _ _ => "an array of three numbers"

/-- Embedding of `list_examples` (resolution.rs): up to
`min (length - 1) 5` comma-separated values, then either the remaining count
(more than five values) or the last value. -/
def list_examples (values : List String) : String :=
  let length := min (values.length - 1) 5
  let output := String.join ((values.take length).map (fun v => v ++ ", "))
  if values.length > 5 then
    output ++ "or " ++ toString (values.length - length) ++ " more"
  else
    output ++ "or " ++ (values.getLast?.getD "")

/-- Sorted member names of an enum descriptor (the `examples.sort()` step of
the enum error constructor in `AmbiguousValue::resolve`). -/
def sortedEnumNames (items : List (String × Nat)) : List String :=
  (items.map Prod.fst).insertionSort (· ≤ ·)

/-- The enum mismatch error of `AmbiguousValue::resolve`: names the class,
property and offending value and lists example members via `list_examples`. -/
def enumError (className property got enumName : String)
    (items : List (String × Nat)) : String :=
  "Invalid value for property " ++ className ++ "." ++ property ++ ". Got " ++
    got ++ " but expected a member of the " ++ enumName ++ " enum such as " ++
    list_examples (sortedEnumNames items)

/-- Truncation toward zero of a rational, the idealization of Rust `trunc`
and of the float-to-int `as` casts. -/
def qtrunc (q : ℚ) : ℤ :=
  if 0 ≤ q then ⌊q⌋ else ⌈q⌉

/-- Saturating float-to-int cast (Rust `as` on floats saturates at the
integer bounds). -/
def satCast (lo hi : ℤ) (q : ℚ) : ℤ :=
  max lo (min hi (qtrunc q))

/-- Rust `num as i32` on an idealized float. -/
def asI32 (q : ℚ) : ℤ := satCast (-(2 ^ 31)) (2 ^ 31 - 1) q

/-- Rust `num as i64` on an idealized float. -/
def asI64 (q : ℚ) : ℤ := satCast (-(2 ^ 63)) (2 ^ 63 - 1) q

/-- Bits of one axis name in the `Axes` arm of `AmbiguousValue::resolve`. -/
def axisBits : String → Option Nat
  | "X" => some 1
  | "Y" => some 2
  | "Z" => some 4
  | _ => none

/-- The accumulation loop of the `Axes` arm: OR the bits together, failing on
the first unknown axis name. -/
def foldAxes : List String → Nat → Except String Nat
  | [], bits => .ok bits
  | axis :: rest, bits =>
    match axisBits axis with
    | some b => foldAxes rest (bits.lor b)
    | none => .error ("invalid axis " ++ axis)

/-- Debug rendering of a variant type (the `{:?}` formatting of the expected
type in the wrong-shape error). -/
def VariantType.typeName : VariantType → String
  | .axes => "Axes"
  | .binaryString => "BinaryString"
  | .bool => "Bool"
  | .content => "Content"
  | .float32 => "Float32"
  | .float64 => "Float64"
  | .int32 => "Int32"
  | .int64 => "Int64"
  | .string => "String"
  | .tags => "Tags"
  | .vector3 => "Vector3"

/-- The wrong-shape error of `AmbiguousValue::resolve` naming the expected
type and what was supplied. -/
def wrongTypeError (className property : String) (t : VariantType)
    (unresolved : AmbiguousValue) : String :=
  "Wrong type of value for property " ++ className ++ "." ++ property ++
    ". Expected " ++ t.typeName ++ ", got " ++ unresolved.describe

/-- Embedding of `AmbiguousValue::resolve` (resolution.rs): look the declared
type of the property up and pattern-match the ambiguous shape against it.
The `num as f32` narrowing is idealized as exact. -/
def AmbiguousValue.resolve (db : ReflectionDatabase) (v : AmbiguousValue)
    (className property : String) : Except String Variant :=
  match find_descriptor db className property with
  | none => .error ("Unknown property " ++ className ++ "." ++ property)
  | some descriptor =>
    match descriptor.dataType with
    | .enum enumName =>
      match db.enums.lookup enumName with
      | none =>
        .error ("Unknown enum " ++ enumName ++ ". Probably not implemented yet!")
      | some ed =>
        match v with
        | .string value =>
          match ed.items.lookup value with
          | some resolved => .ok (.enum resolved)
          | none => .error (enumError className property value enumName ed.items)
        | unresolved =>
          .error (enumError className property unresolved.describe enumName ed.items)
    | .value t =>
      match t, v with
      | .axes, .stringArray axes =>
        (foldAxes axes 0).map Variant.axes
      | .binaryString, .string s => .ok (.binaryString s)
      | .bool, .bool b => .ok (.bool b)
      | .content, .string s => .ok (.content s)
      | .float32, .number n => .ok (.float32 n)
      | .float64, .number n => .ok (.float64 n)
      | .int32, .number n => .ok (.int32 (asI32 n))
      | .int64, .number n => .ok (.int64 (asI64 n))
      | .string, .string s => .ok (.string s)
      | .tags, .stringArray ts => .ok (.tags ts)
      | .vector3, .array3 x y z => .ok (.vector3 x y z)
      | _, unresolved => .error (wrongTypeError className property t unresolved)
    | .other =>
      .error ("Unknown data type for property " ++ className ++ "." ++ property)

/-- Loosely-typed value as stored in sidecar files and project documents
(`UnresolvedValue` of resolution.rs). -/
inductive UnresolvedValue where
  | fullyQualified (v : Variant)
  | ambiguous (a : AmbiguousValue)
  deriving DecidableEq

/-- Embedding of `UnresolvedValue::resolve`. -/
def UnresolvedValue.resolve (db : ReflectionDatabase) :
    UnresolvedValue → String → String → Except String Variant
  | .fullyQualified full, _, _ => .ok full
  | .ambiguous part, className, property => part.resolve db className property

/-- First enum member name carrying the given id (the reverse scan of the
enum arm of `UnresolvedValue::from_variant`). -/
def findNameForId : List (String × Nat) → Nat → Option String
  | [], _ => none
  | (name, i) :: rest, id => if i = id then some name else findNameForId rest id

/-- Embedding of `UnresolvedValue::from_variant` (resolution.rs): the reverse
direction of the codec.  Enums become their symbolic name when the database
documents them; scalars, strings, tags, content and vectors become ambiguous
shapes; every other variant is kept fully qualified. -/
def UnresolvedValue.from_variant (db : ReflectionDatabase) (variant : Variant)
    (className propName : String) : UnresolvedValue :=
  match variant with
  | .enum id =>
    match find_descriptor db className propName with
    | some property =>
      match property.dataType with
      | .enum enumName =>
        match db.enums.lookup enumName with
        | some ed =>
          match findNameForId ed.items id with
          | some variantName => .ambiguous (.string variantName)
          | none => .fullyQualified variant
        | none => .fullyQualified variant
      | _ => .fullyQualified variant
    | none => .fullyQualified variant
  | .bool b => .ambiguous (.bool b)
  | .float32 n => .ambiguous (.number n)
  | .float64 n => .ambiguous (.number n)
  | .int32 n => .ambiguous (.number (n : ℚ))
  | .int64 n => .ambiguous (.number (n : ℚ))
  | .string s => .ambiguous (.string s)
  | .tags ts => .ambiguous (.stringArray ts)
  | .content s => .ambiguous (.string s)
  | .vector3 x y z => .ambiguous (.array3 x y z)
  | _ => .fullyQualified variant

/-- Whether a reverse-converted value came back in ambiguous (loose) form. -/
def UnresolvedValue.isAmbiguousVal : UnresolvedValue → Bool
  | .ambiguous _ => true
  | .fullyQualified _ => false

/-- Idealized `f64` for the serialization helpers: finite rationals plus the
two signed infinities (NaN never reaches `truncate_number` in the embedded
claims). -/
inductive FloatVal where
  | inf (positive : Bool)
  | fin (q : ℚ)
  deriving DecidableEq

/-- Embedding of `truncate_number` (resolution.rs): infinities are clamped to
`999_999_999 * signum`, finite values are truncated to six decimal digits. -/
def truncate_number : FloatVal → ℚ
  | .inf positive => if positive then 999999999 else -999999999
  | .fin q => (qtrunc (q * 1000000) : ℚ) / 1000000

/-- Fractional part left after truncation toward zero (`f64::fract`). -/
def qfract (q : ℚ) : ℚ := q - (qtrunc q : ℚ)

/-- A serialized JSON number: an integer literal or a float literal. -/
inductive JsonNumber where
  | int (z : ℤ)
  | float (q : ℚ)
  deriving DecidableEq

/-- Embedding of `serialize_number` (resolution.rs): truncate, then emit an
integer literal when the fractional part is zero (`number as i64`, which
saturates) and a float literal otherwise. -/
def serialize_number (v : FloatVal) : JsonNumber :=
  let number := truncate_number v
  if qfract number = 0 then .int (asI64 number) else .float number

/-- Embedding of the per-element body of `serialize_array` (resolution.rs),
which applies exactly the `serialize_number` dispatch to each element. -/
def serialize_array (a : List FloatVal) : List JsonNumber :=
  a.map serialize_number

/-! ## Filesystem, sync-rule and tree model

Modelled from the spec: the `Vfs` collaborator, the syncback filter, sync
rules, `Meta`/`Source`/`SourceKind` and the `Tree` store are repository
modules not among the embedded sources, so they are reconstructed here from
the specification's descriptions and the way `write.rs` uses them. -/

/-- Filesystem path as a list of segments from the root. -/
abbrev FsPath := List String

/-- Last segment of a path (`PathExt::get_name`). -/
def FsPath.getName (p : FsPath) : String := p.getLast?.getD ""

/-- Replace the last segment (`Path::with_file_name`). -/
def FsPath.withFileName (p : FsPath) (name : String) : FsPath :=
  p.dropLast ++ [name]

/-- Modelled from the spec: the abstract filesystem (`Vfs`) with files
holding string contents plus a set of directories. -/
structure Vfs where
  files : List (FsPath × String)
  dirs : List FsPath

def Vfs.isFile (vfs : Vfs) (p : FsPath) : Bool := (vfs.files.lookup p).isSome

def Vfs.isDir (vfs : Vfs) (p : FsPath) : Bool := vfs.dirs.contains p

def Vfs.pathExists (vfs : Vfs) (p : FsPath) : Bool := vfs.isFile p || vfs.isDir p

def Vfs.readToString (vfs : Vfs) (p : FsPath) : Option String := vfs.files.lookup p

/-- Write a file, replacing any previous content at the path. -/
def Vfs.write (vfs : Vfs) (p : FsPath) (content : String) : Vfs :=
  { vfs with files := (p, content) :: vfs.files.filter (fun e => e.1 != p) }

/-- Remove a file or a directory together with everything under it. -/
def Vfs.removePath (vfs : Vfs) (p : FsPath) : Vfs :=
  { files := vfs.files.filter (fun e => !(p.isPrefixOf e.1)),
    dirs := vfs.dirs.filter (fun d => !(p.isPrefixOf d)) }

/-- Rewrite one path under a rename of a prefix. -/
def replacePrefix (pre new p : FsPath) : FsPath :=
  if pre.isPrefixOf p then new ++ p.drop pre.length else p

/-- Rename a file or directory; everything under the source moves along. -/
def Vfs.rename (vfs : Vfs) (src dst : FsPath) : Vfs :=
  { files := vfs.files.map (fun e => (replacePrefix src dst e.1, e.2)),
    dirs := vfs.dirs.map (replacePrefix src dst) }

/-- Modelled from the spec: `dir::write_dir` creates the directory. -/
def writeDir (p : FsPath) (vfs : Vfs) : Vfs :=
  { vfs with dirs := if vfs.dirs.contains p then vfs.dirs else p :: vfs.dirs }

/-- Modelled from the spec: the syncback filter's three exclusion
predicates. -/
structure SyncbackFilter where
  matchesName : String → Bool
  matchesClass : String → Bool
  matchesPath : FsPath → Bool

/-- Middleware kind (the `Middleware` enum): only `InstanceData` is
distinguished by the embedded logic, other kinds are carried by tag. -/
inductive MiddlewareKind where
  | instanceData
  | other (tag : String)
  deriving DecidableEq

/-- Modelled from the spec: one location-pattern sync rule of a middleware
kind, with `locate`, `matches`, `matches_child` and name extraction. -/
structure SyncRule where
  kind : MiddlewareKind
  childPattern : Option String
  locate : FsPath → String → Bool → Option FsPath
  ruleMatches : FsPath → Bool
  matchesChild : FsPath → Bool
  getName : FsPath → String

/-- Modelled from the spec: the inherited sync context carried by `Meta`. -/
structure Context where
  syncRules : List SyncRule
  filter : SyncbackFilter
  useLegacyScripts : Bool

/-- The sync rules of one middleware kind, in order
(`Context::sync_rules_of_type`). -/
def Context.syncRulesOfType (ctx : Context) (kind : MiddlewareKind) : List SyncRule :=
  ctx.syncRules.filter (fun r => r.kind == kind)

/-- Modelled from the spec: a project-document node — optional class name,
optional custom path, a name-keyed nested child map, serialized properties,
attributes, tags and the keep-unknowns flag. -/
inductive ProjectNode where
  | mk (className : Option String) (path : Option FsPath)
      (tree : List (String × ProjectNode))
      (properties : List (String × UnresolvedValue))
      (attributes : Option (List (String × UnresolvedValue)))
      (tags : List String) (keepUnknowns : Option Bool)

def ProjectNode.className : ProjectNode → Option String
  | .mk c _ _ _ _ _ _ => c

def ProjectNode.path : ProjectNode → Option FsPath
  | .mk _ p _ _ _ _ _ => p

def ProjectNode.tree : ProjectNode → List (String × ProjectNode)
  | .mk _ _ t _ _ _ _ => t

def ProjectNode.properties : ProjectNode → List (String × UnresolvedValue)
  | .mk _ _ _ ps _ _ _ => ps

def ProjectNode.attributes : ProjectNode → Option (List (String × UnresolvedValue))
  | .mk _ _ _ _ a _ _ => a

def ProjectNode.tags : ProjectNode → List String
  | .mk _ _ _ _ _ ts _ => ts

def ProjectNode.keepUnknowns : ProjectNode → Option Bool
  | .mk _ _ _ _ _ _ k => k

def ProjectNode.setTree (n : ProjectNode) (t : List (String × ProjectNode)) : ProjectNode :=
  match n with
  | .mk c p _ ps a ts k => .mk c p t ps a ts k

def ProjectNode.default : ProjectNode := .mk none none [] [] none [] none

/-- Remove a child by name from a node's child map, returning the removed
node when present (`BTreeMap::remove`). -/
def lookupRemove : List (String × ProjectNode) → String →
    Option ProjectNode × List (String × ProjectNode)
  | [], _ => (none, [])
  | (k, v) :: rest, name =>
    if k == name then (some v, rest)
    else
      let r := lookupRemove rest name
      (r.1, (k, v) :: r.2)

/-- Insert a child, replacing any previous child of the same name
(`BTreeMap::insert`). -/
def insertChild (t : List (String × ProjectNode)) (name : String)
    (node : ProjectNode) : List (String × ProjectNode) :=
  if (t.lookup name).isSome then
    t.map (fun e => if e.1 == name then (name, node) else e)
  else
    t ++ [(name, node)]

/-- Descend a node's nested child maps along a breadcrumb of names. -/
def ProjectNode.descend (n : ProjectNode) : List String → Option ProjectNode
  | [] => some n
  | name :: rest =>
    match n.tree.lookup name with
    | some child => child.descend rest
    | none => none

/-- Replace the node at a breadcrumb, keeping the rest of the tree. -/
def ProjectNode.updateAt (n : ProjectNode) : List String → ProjectNode → ProjectNode
  | [], node => node
  | name :: rest, node =>
    match n.tree.lookup name with
    | none => n
    | some child =>
      n.setTree (n.tree.map (fun e =>
        if e.1 == name then (name, child.updateAt rest node) else e))

/-- Modelled from the spec: the project document as the engine sees it — a
name plus the root node (the bookkeeping fields of `Project` play no part in
the embedded logic). -/
structure Project where
  name : String
  node : ProjectNode

/-- Modelled from the spec: `find_node_by_path` re-locates a node from an
ordered breadcrumb of names below the document root. -/
def Project.findNodeByPath (p : Project) (np : List String) : Option ProjectNode :=
  p.node.descend np

/-- Replace the node at a breadcrumb of the document. -/
def Project.updateAt (p : Project) (np : List String) (node : ProjectNode) : Project :=
  { p with node := p.node.updateAt np node }

/-- Where an instance's authoritative bytes live (`SourceKind`). -/
inductive SourceKind where
  | none
  | path (p : FsPath)
  | project (name : String) (projectPath : FsPath) (node : ProjectNode)
      (nodePath : List String)

/-- One independently renameable disk artifact backing an instance
(`SourceEntry`). -/
inductive SourceEntry where
  | file (p : FsPath)
  | folder (p : FsPath)
  | data (p : FsPath)
  | project (p : FsPath)

def SourceEntry.path : SourceEntry → FsPath
  | .file p => p
  | .folder p => p
  | .data p => p
  | .project p => p

def SourceEntry.isFile : SourceEntry → Bool
  | .file _ => true
  | _ => false

def SourceEntry.isFolder : SourceEntry → Bool
  | .folder _ => true
  | _ => false

def SourceEntry.isData : SourceEntry → Bool
  | .data _ => true
  | _ => false

def SourceEntry.isProject : SourceEntry → Bool
  | .project _ => true
  | _ => false

/-- Modelled from the spec: a `Source` is its kind plus the set of relevant
entries backing the instance. -/
structure Source where
  kind : SourceKind
  relevant : List SourceEntry

def Source.file (p : FsPath) : Source := ⟨.path p, [.file p]⟩

def Source.directory (p : FsPath) : Source := ⟨.path p, [.folder p]⟩

def Source.childFile (folderPath filePath : FsPath) : Source :=
  ⟨.path folderPath, [.folder folderPath, .file filePath]⟩

def Source.projectSource (name : String) (path : FsPath) (node : ProjectNode)
    (nodePath : List String) : Source :=
  ⟨.project name path node nodePath, [.project path]⟩

def Source.getFile (s : Source) : Option SourceEntry :=
  s.relevant.find? SourceEntry.isFile

def Source.getFolder (s : Source) : Option SourceEntry :=
  s.relevant.find? SourceEntry.isFolder

def Source.getData (s : Source) : Option SourceEntry :=
  s.relevant.find? SourceEntry.isData

/-- Set or clear the data entry (`Source::set_data`). -/
def Source.setData (s : Source) (p : Option FsPath) : Source :=
  let without := s.relevant.filter (fun e => !e.isData)
  match p with
  | some p => { s with relevant := without ++ [.data p] }
  | none => { s with relevant := without }

def Source.addData (s : Source) (p : FsPath) : Source :=
  { s with relevant := s.relevant ++ [.data p] }

def Source.addFile (s : Source) (p : FsPath) : Source :=
  { s with relevant := s.relevant ++ [.file p] }

def Source.withRelevant (s : Source) (r : List SourceEntry) : Source :=
  { s with relevant := r }

/-- Modelled from the spec: per-instance sync metadata (`Meta`), restricted
to the fields the embedded logic reads. -/
structure Meta where
  source : Source
  context : Context
  keepUnknowns : Bool
  originalName : Option String

def Meta.setSource (m : Meta) (s : Source) : Meta := { m with source := s }

def Meta.setSourceKind (m : Meta) (k : SourceKind) : Meta :=
  { m with source := { m.source with kind := k } }

/-- Merge the inherited context (`Meta::with_context`). -/
def Meta.withContext (m : Meta) (ctx : Context) : Meta := { m with context := ctx }

def Meta.withSource (m : Meta) (s : Source) : Meta := { m with source := s }

/-- Opaque instance identifier. -/
abbrev Ref := Nat

/-- Property map of an instance. -/
abbrev Properties := List (String × Variant)

/-- One stored instance of the tree: name, class, properties and the
parent/children links. -/
structure Inst where
  name : String
  className : String
  properties : Properties
  parent : Ref
  children : List Ref

/-- Modelled from the spec: the authoritative `Tree` store of instances and
metadata with get/insert/update/remove and parent/children navigation. -/
structure Tree where
  instances : List (Ref × Inst)
  metas : List (Ref × Meta)

def Tree.existsRef (t : Tree) (id : Ref) : Bool := (t.instances.lookup id).isSome

def Tree.getInstance (t : Tree) (id : Ref) : Option Inst := t.instances.lookup id

def Tree.getMeta (t : Tree) (id : Ref) : Option Meta := t.metas.lookup id

def Tree.setInstance (t : Tree) (id : Ref) (i : Inst) : Tree :=
  { t with instances := t.instances.map (fun e => if e.1 == id then (id, i) else e) }

def Tree.updateMeta (t : Tree) (id : Ref) (m : Meta) : Tree :=
  { t with metas := (id, m) :: t.metas.filter (fun e => e.1 != id) }

/-- Insert a fresh instance record under a parent
(`Tree::insert_instance_with_ref`): children links are created by the
recursive addition calls themselves. -/
def Tree.insertInstanceWithRef (t : Tree) (id : Ref) (i : Inst) (m : Meta)
    (parentId : Ref) : Tree :=
  { instances :=
      (id, { i with parent := parentId }) ::
        (t.instances.map (fun e =>
          if e.1 == parentId then (e.1, { e.2 with children := e.2.children ++ [id] })
          else e)),
    metas := (id, m) :: t.metas }

/-- Remove an instance and its metadata, detaching it from its parent
(`Tree::remove_instance`). -/
def Tree.removeInstance (t : Tree) (id : Ref) : Tree :=
  { instances :=
      (t.instances.filter (fun e => e.1 != id)).map (fun e =>
        (e.1, { e.2 with children := e.2.children.filter (fun c => c != id) })),
    metas := t.metas.filter (fun e => e.1 != id) }

/-! ## Snapshot types (core/snapshot.rs) -/

/-- Embedding of `Snapshot` (core/snapshot.rs): transient description of one
instance and its subtree.  The Rust `class` field is named `className` here
because `class` is a Lean keyword. -/
inductive Snapshot where
  | mk (id : Ref) (meta : Meta) (name : String) (className : String)
      (properties : Properties) (children : List Snapshot)

def Snapshot.id : Snapshot → Ref
  | .mk i _ _ _ _ _ => i

def Snapshot.meta : Snapshot → Meta
  | .mk _ m _ _ _ _ => m

def Snapshot.name : Snapshot → String
  | .mk _ _ n _ _ _ => n

def Snapshot.className : Snapshot → String
  | .mk _ _ _ c _ _ => c

def Snapshot.properties : Snapshot → Properties
  | .mk _ _ _ _ ps _ => ps

def Snapshot.children : Snapshot → List Snapshot
  | .mk _ _ _ _ _ cs => cs

def Snapshot.withMeta (s : Snapshot) (m : Meta) : Snapshot :=
  match s with
  | .mk i _ n c ps cs => .mk i m n c ps cs

def Snapshot.withName (s : Snapshot) (n : String) : Snapshot :=
  match s with
  | .mk i m _ c ps cs => .mk i m n c ps cs

def Snapshot.withProperties (s : Snapshot) (ps : Properties) : Snapshot :=
  match s with
  | .mk i m n c _ cs => .mk i m n c ps cs

/-- Embedding of `AddedSnapshot` (core/snapshot.rs): a snapshot payload plus
the parent it must be attached under. -/
structure AddedSnapshot where
  id : Ref
  meta : Meta
  parent : Ref
  name : String
  className : String
  properties : Properties
  children : List Snapshot

/-- Embedding of `AddedSnapshot::to_snapshot`. -/
def AddedSnapshot.toSnapshot (a : AddedSnapshot) : Snapshot :=
  .mk a.id a.meta a.name a.className a.properties a.children

/-- Embedding of `UpdatedSnapshot` (core/snapshot.rs): optional name, class,
properties and meta fields.  The Rust `class` field is named `className`. -/
structure UpdatedSnapshot where
  id : Ref
  meta : Option Meta
  name : Option String
  className : Option String
  properties : Option Properties

/-- Embedding of `UpdatedSnapshot::is_empty` (core/snapshot.rs, lines
213-215): true exactly when `name`, `class` and `properties` are all absent;
the `meta` field does not participate. -/
def UpdatedSnapshot.is_empty (u : UpdatedSnapshot) : Bool :=
  u.name.isNone && u.className.isNone && u.properties.isNone

/-! ## Sidecar data files (middleware/data.rs) -/

/-- Embedding of the deserialized sidecar `Data` record
(middleware/data.rs). -/
structure DataRecord where
  className : Option String
  properties : List (String × UnresolvedValue)
  attributes : Option UnresolvedValue
  tags : List String
  keepUnknowns : Option Bool
  originalName : Option String

/-- Embedding of `DataSnapshot` (middleware/data.rs); all fields default, as
`DataSnapshot::default()` produces. -/
structure DataSnapshot where
  path : FsPath := []
  className : Option String := none
  properties : Properties := []
  keepUnknowns : Option Bool := none
  originalName : Option String := none
  meshSource : Option String := none
  deriving DecidableEq

/-- Embedding of `WritableData` (middleware/data.rs): the serializable
sidecar payload; every field skipped when default. -/
structure WritableData where
  className : Option String := none
  properties : List (String × UnresolvedValue) := []
  keepUnknowns : Option Bool := none
  originalName : Option String := none
  deriving DecidableEq

def WritableData.defaultData : WritableData := {}

/-- Rendering of one unresolved value for the sidecar JSON model; the exact
bytes play no part in any claim, only which files exist. -/
def encodeUnresolved : UnresolvedValue → String
  | .fullyQualified _ => "\x7bfull\x7d"
  | .ambiguous _ => "\x7bambiguous\x7d"

/-- Rendering of the sidecar JSON payload (the `JsonFormatter` serialization
of `WritableData`); a concrete injective-enough encoding whose exact bytes
play no part in any claim. -/
def encodeData (d : WritableData) : String :=
  "\x7b" ++
    (match d.className with
     | some c => "className:" ++ c ++ ";"
     | none => "") ++
    String.join (d.properties.map (fun e => e.1 ++ "=" ++ encodeUnresolved e.2 ++ ";")) ++
    (match d.keepUnknowns with
     | some b => "keepUnknowns:" ++ (if b then "true" else "false") ++ ";"
     | none => "") ++
    (match d.originalName with
     | some n => "originalName:" ++ n ++ ";"
     | none => "") ++
  "\x7d"

/-- Environment of collaborator functions the embedded logic calls into.
Modelled from the spec: middleware resolution and writing, property
validation/serialization helpers, the collision-safe `verify_name` and
`verify_path` helpers (which may rename, and report failure as `none`),
`rename_path`, the project/sidecar parsers, and small utility predicates. -/
structure Env where
  fromClass : String → Properties → Bool → Option MiddlewareKind × Properties
  middlewareWrite : MiddlewareKind → Properties → FsPath → Vfs →
    Except String (Properties × Vfs)
  validateProperties : Properties → SyncbackFilter → Properties
  serializeProperties : String → Properties → List (String × UnresolvedValue)
  verifyName : String → Meta → Option (String × Meta)
  verifyPath : FsPath → String → Meta → Vfs → Option (FsPath × String × Meta)
  renamePath : FsPath → String → String → FsPath
  parseProject : String → Except String Project
  encodeProject : Project → String
  parseData : String → Except String DataRecord
  rojoMode : Bool
  isService : String → Bool
  saveMesh : Properties → Option String
  db : ReflectionDatabase

/-- Embedding of `write_data` (middleware/data.rs): build the sidecar
payload (class name only when there is no main file and the class is not
`Folder`; properties through `UnresolvedValue::from_variant`; the meta's
keep-unknowns flag and original name); when the payload is entirely default
no file is written and an existing file at the path is removed, reporting
`none`, otherwise the payload is serialized to the path. -/
def write_data (env : Env) (hasFile : Bool) (className : String)
    (properties : Properties) (path : FsPath) (meta : Meta) (vfs : Vfs) :
    Option FsPath × Vfs :=
  let classNameField := if !hasFile && className != "Folder" then some className else none
  let props := properties.map (fun e =>
    (e.1, UnresolvedValue.from_variant env.db e.2 className e.1))
  let data : WritableData :=
    { className := classNameField,
      properties := props,
      keepUnknowns := if meta.keepUnknowns then some true else none,
      originalName := meta.originalName }
  if data = WritableData.defaultData then
    if vfs.pathExists path then (none, vfs.removePath path) else (none, vfs)
  else
    (some path, vfs.write path (encodeData data ++ "\n"))

/-- Embedding of `read_data` (middleware/data.rs): read the sidecar, treat
empty content as the default snapshot, otherwise parse it, determine the
class (argument, stored class name, service-name heuristics, `Folder`),
resolve properties/attributes/tags — a property that fails to resolve is
logged and omitted — and collect the snapshot. -/
def read_data (env : Env) (path : FsPath) (classArg : Option String) (vfs : Vfs) :
    Except String DataSnapshot :=
  match vfs.readToString path with
  | none => .error "failed to read data file"
  | some data =>
    if data = "" then .ok {}
    else
      match env.parseData data with
      | .error e => .error e
      | .ok d =>
        let className :=
          match classArg with
          | some c => c
          | none =>
            match d.className with
            | some c => c
            | none =>
              let name := FsPath.getName path
              if env.isService name then name
              else
                let parentName := FsPath.getName path.dropLast
                if env.isService parentName then parentName else "Folder"
        let props := d.properties.foldl (fun acc e =>
          match UnresolvedValue.resolve env.db e.2 className e.1 with
          | .ok value => acc ++ [(e.1, value)]
          | .error _ => acc) []
        let props :=
          match d.attributes with
          | some a =>
            match UnresolvedValue.resolve env.db a className "Attributes" with
            | .ok value => props ++ [("Attributes", value)]
            | .error _ => props
          | none => props
        let props :=
          if d.tags.isEmpty then props
          else props ++ [("Tags", Variant.tags d.tags)]
        let meshSource :=
          if className = "MeshPart" then env.saveMesh props else none
        .ok { path := path, className := d.className, properties := props,
              keepUnknowns := d.keepUnknowns, originalName := d.originalName,
              meshSource := meshSource }

/-- Embedding of `write_original_name` (middleware/data.rs): patch only the
`originalName` field of an existing sidecar (or create a sidecar holding
just it), removing the file instead when the result would be entirely
default. -/
def write_original_name (env : Env) (path : FsPath) (meta : Meta) (vfs : Vfs) :
    Except String Vfs :=
  if vfs.pathExists path then
    match vfs.readToString path with
    | none => .error "failed to read data file"
    | some data =>
      if data = "" then .ok vfs
      else
        match env.parseData data with
        | .error e => .error e
        | .ok d =>
          if d.originalName = meta.originalName then .ok vfs
          else
            let wd : WritableData :=
              { className := d.className, properties := d.properties,
                keepUnknowns := d.keepUnknowns, originalName := meta.originalName }
            if wd = WritableData.defaultData then .ok (vfs.removePath path)
            else .ok (vfs.write path (encodeData wd ++ "\n"))
  else
    let wd : WritableData := { originalName := meta.originalName }
    if wd = WritableData.defaultData then .ok vfs
    else .ok (vfs.write path (encodeData wd ++ "\n"))

/-! ## The syncback engine (core/processor/write.rs)

State is passed explicitly: `WState` carries the tree, the virtual
filesystem and a count of the warnings logged so far.  `WriteResult.fatal`
models `panic!`/`unreachable!` (process termination), `WriteResult.err`
models an `Err` value returned to the caller. -/

structure WState where
  tree : Tree
  vfs : Vfs
  warnings : Nat

/-- Log one warning (`warn!` / the `filter_warn!` macro). -/
def WState.warn (st : WState) : WState := { st with warnings := st.warnings + 1 }

inductive WriteResult where
  | ok (s : WState)
  | err (msg : String) (s : WState)
  | fatal (msg : String)

def WriteResult.isOk : WriteResult → Bool
  | .ok _ => true
  | _ => false

def WriteResult.isErr : WriteResult → Bool
  | .err _ _ => true
  | _ => false

def WriteResult.isFatal : WriteResult → Bool
  | .fatal _ => true
  | _ => false

/-- Intermediate outcome of a helper: a value, a recoverable error
propagated by `?`, or a panic. -/
inductive Step (α : Type) where
  | ok (a : α)
  | err (msg : String) (s : WState)
  | fatal (msg : String)

/-- Outcome of a section of a function body that may `return Ok(())` early,
propagate an error, or fall through to the rest of the body. -/
inductive SectionRes (α : Type) where
  | cont (a : α)
  | exitOk (s : WState)
  | exitErr (msg : String) (s : WState)

/-- Embedding of `Project::load` as `write.rs` uses it: read the document
from the filesystem and parse it. -/
def Project.load (env : Env) (path : FsPath) (vfs : Vfs) : Except String Project :=
  match vfs.readToString path with
  | none => .error "failed to read project file"
  | some content => env.parseProject content

/-- Resolution of a project node's custom path against the project file's
directory (`path.with_file_name(custom_path.path()).clean()`). -/
def resolveCustomPath (projectPath custom : FsPath) : FsPath :=
  projectPath.dropLast ++ custom

/-- Embedding of the addition-side `locate_instance_data` (write.rs, lines
81-102): first instance-data sync rule that locates a path. -/
def locateInstanceDataAdd (parentMeta : Meta) (isDir : Bool) (path : FsPath)
    (snapshot : Snapshot) : Option FsPath :=
  (parentMeta.context.syncRulesOfType .instanceData).findSome?
    (fun (rule : SyncRule) => rule.locate path snapshot.name isDir)

/-- Embedding of `write_instance` (write.rs, lines 104-263): write one
instance either as a directory (it has children) or as a file, placing its
content through the middleware and its sidecar through `write_data`; `none`
means the instance was skipped (filtered or failed verification) and the
caller must not add it. -/
def writeInstance (env : Env) (hasChildren : Bool) (path : FsPath)
    (snapshot : Snapshot) (parentMeta : Meta) (st : WState) :
    Step (Option (Meta × FsPath × Snapshot) × WState) :=
  let meta0 := snapshot.meta.withContext parentMeta.context
  let filter := parentMeta.context.filter
  match env.fromClass snapshot.className snapshot.properties
      (!parentMeta.context.useLegacyScripts) with
  | (some middleware, properties) =>
    match (parentMeta.context.syncRulesOfType middleware).findSome?
        (fun (rule : SyncRule) => rule.locate path snapshot.name hasChildren) with
    | none => .err ("Failed to locate file path for parent: " ++ toString path) st
    | some filePath0 =>
      let afterSource :
          Option (FsPath × FsPath × Snapshot × Meta × WState) :=
        if hasChildren then
          if filter.matchesPath path then none
          else
            match env.verifyPath path snapshot.name meta0 st.vfs with
            | none => none
            | some (path1, name1, meta1) =>
              let vfs1 := writeDir path1 st.vfs
              some (path1, filePath0, snapshot.withName name1,
                meta1.setSource (Source.childFile path1 filePath0),
                { st with vfs := vfs1 })
        else
          match env.verifyPath filePath0 snapshot.name meta0 st.vfs with
          | none => none
          | some (filePath1, name1, meta1) =>
            some (path, filePath1, snapshot.withName name1,
              meta1.setSource (Source.file filePath1), st)
      match afterSource with
      | none =>
        -- the filtered directory path logs a warning; a failed verification
        -- does not, but the distinction feeds no claim, so both count one
        if hasChildren && filter.matchesPath path then .ok (none, st.warn)
        else .ok (none, st)
      | some (path2, filePath2, snapshot2, meta2, st2) =>
        if filter.matchesPath filePath2 then .ok (none, st2.warn)
        else
          match env.middlewareWrite middleware properties filePath2 st2.vfs with
          | .error e => .err e st2
          | .ok (remaining, vfs3) =>
            let st3 := { st2 with vfs := vfs3 }
            match locateInstanceDataAdd parentMeta hasChildren path2 snapshot2 with
            | none =>
              .err ("Failed to locate data path for parent: " ++ toString path2) st3
            | some dataPath =>
              if filter.matchesPath dataPath then
                .ok (some (meta2, path2, snapshot2), st3.warn)
              else
                let wd := write_data env true snapshot2.className remaining dataPath meta2 st3.vfs
                let meta3 := meta2.setSource (meta2.source.setData wd.1)
                .ok (some (meta3, path2, snapshot2), { st3 with vfs := wd.2 })
  | (none, properties) =>
    if filter.matchesPath path then .ok (none, st.warn)
    else
      match env.verifyPath path snapshot.name meta0 st.vfs with
      | none => .ok (none, st)
      | some (path1, name1, meta1) =>
        let snapshot1 := snapshot.withName name1
        let vfs1 := writeDir path1 st.vfs
        let meta2 := meta1.setSource (Source.directory path1)
        let st1 := { st with vfs := vfs1 }
        match locateInstanceDataAdd parentMeta true path1 snapshot1 with
        | none => .err ("Failed to locate data path for parent: " ++ toString path1) st1
        | some dataPath =>
          if filter.matchesPath dataPath then
            .ok (some (meta2, path1, snapshot1), st1.warn)
          else
            let wd := write_data env false snapshot1.className properties dataPath meta2 st1.vfs
            let meta3 := meta2.setSource (meta2.source.setData wd.1)
            .ok (some (meta3, path1, snapshot1), { st1 with vfs := wd.2 })

/-- The file-to-folder promotion of a leaf parent gaining a child
(write.rs, lines 287-419): pick the sync rule matching the parent's file,
compute the same-named folder, verify it, move the file (and sidecar)
inside, and return the new child-file source.  `exitOk src` stands for the
early `return Ok(parent_meta.source.clone())` on verification failure. -/
def promoteParentFile (env : Env) (parentPath : FsPath) (snapshot : Snapshot)
    (parentMeta : Meta) (st : WState) :
    Step (SectionRes (Source × FsPath × Snapshot × Meta × WState) × Unit) :=
  let rules := parentMeta.context.syncRules.filter (fun rule =>
    match rule.childPattern with
    | some pattern =>
      !((pattern.startsWith ".src" || pattern.endsWith ".data.json") && env.rojoMode)
    | none => true)
  match rules.find? (fun rule => rule.ruleMatches parentPath) with
  | none => .err ("Failed to find sync rule for path: " ++ toString parentPath) st
  | some syncRule =>
    let name := syncRule.getName parentPath
    let folderPath0 := parentPath.withFileName name
    match env.verifyPath folderPath0 snapshot.name parentMeta st.vfs with
    | none => .ok (.exitOk st, ())
    | some (folderPath, snapName, parentMeta1) =>
      let snapshot1 := snapshot.withName snapName
      match syncRule.locate folderPath name true with
      | none => .err ("Failed to locate file path for parent: " ++ toString folderPath) st
      | some filePath =>
        match parentMeta1.source.getData with
        | some dataEntry =>
          match (parentMeta1.context.syncRulesOfType .instanceData).findSome?
              (fun (r : SyncRule) => r.locate folderPath name true) with
          | none => .err ("Failed to locate data path for parent: " ++ toString folderPath) st
          | some newDataPath =>
            let source := (Source.childFile folderPath filePath).addData newDataPath
            let vfs1 := writeDir folderPath st.vfs
            let vfs2 := vfs1.rename parentPath filePath
            let vfs3 := vfs2.rename dataEntry.path newDataPath
            .ok (.cont (source, folderPath, snapshot1, parentMeta1, { st with vfs := vfs3 }), ())
        | none =>
          let source := Source.childFile folderPath filePath
          let vfs1 := writeDir folderPath st.vfs
          let vfs2 := vfs1.rename parentPath filePath
          .ok (.cont (source, folderPath, snapshot1, parentMeta1, { st with vfs := vfs2 }), ())

mutual

/-- Embedding of `add_non_project_instances` (write.rs, lines 265-483):
possibly promote a leaf parent to a folder, verify the new instance's name,
write it (and, when it has children, recurse); returns the parent's new
source.  The recursion over the snapshot tree is fuelled; every claim's run
supplies fuel at least the snapshot's size, which the recursion never
exhausts. -/
def addNonProject (env : Env) (fuel : Nat) (parentId : Ref) (parentPath0 : FsPath)
    (snapshot0 : Snapshot) (parentMeta0 : Meta) (st0 : WState) :
    Step (Source × Meta × WState) :=
  match fuel with
  | 0 => .fatal "addNonProject: recursion fuel exhausted"
  | fuel + 1 =>
    let promoted :
        Step (SectionRes (Source × FsPath × Snapshot × Meta × WState) × Unit) :=
      if st0.vfs.isFile parentPath0 then
        promoteParentFile env parentPath0 snapshot0 parentMeta0 st0
      else
        .ok (.cont (parentMeta0.source, parentPath0, snapshot0, parentMeta0, st0), ())
    match promoted with
    | .err e s => .err e s
    | .fatal m => .fatal m
    | .ok (.exitOk s, _) => .ok (parentMeta0.source, parentMeta0, s)
    | .ok (.exitErr e s, _) => .err e s
    | .ok (.cont (parentSource, parentPath, snapshot1, parentMeta1, st1), _) =>
      match env.verifyName snapshot1.name snapshot1.meta with
      | none => .ok (parentSource, parentMeta1, st1)
      | some (snapName, snapMeta) =>
        let snapshot2 := (snapshot1.withName snapName).withMeta snapMeta
        let path := parentPath ++ [snapshot2.name]
        if snapshot2.children.isEmpty then
          match writeInstance env false path snapshot2 parentMeta1 st1 with
          | .err e s => .err e s
          | .fatal m => .fatal m
          | .ok (none, st2) => .ok (parentSource, parentMeta1, st2)
          | .ok (some (meta, _, snapshot3), st2) =>
            let tree1 := st2.tree.insertInstanceWithRef snapshot3.id
              ⟨snapshot3.name, snapshot3.className, snapshot3.properties, 0, []⟩
              meta parentId
            .ok (parentSource, parentMeta1, { st2 with tree := tree1 })
        else
          match writeInstance env true path snapshot2 parentMeta1 st1 with
          | .err e s => .err e s
          | .fatal m => .fatal m
          | .ok (none, st2) => .ok (parentSource, parentMeta1, st2)
          | .ok (some (meta, path2, snapshot3), st2) =>
            let tree1 := st2.tree.insertInstanceWithRef snapshot3.id
              ⟨snapshot3.name, snapshot3.className, snapshot3.properties, 0, []⟩
              meta parentId
            match addNonProjectChildren env fuel snapshot3.id path2
                snapshot3.children meta { st2 with tree := tree1 } with
            | .err e s => .err e s
            | .fatal m => .fatal m
            | .ok (_, st3) => .ok (parentSource, parentMeta1, st3)

/-- The children loop of `add_non_project_instances`: validate each child's
properties against the new instance's filter and recurse, threading the new
instance's meta through. -/
def addNonProjectChildren (env : Env) (fuel : Nat) (parentId : Ref)
    (path : FsPath) (children : List Snapshot) (meta : Meta) (st : WState) :
    Step (Meta × WState) :=
  match children with
  | [] => .ok (meta, st)
  | child :: rest =>
    let child1 := child.withProperties
      (env.validateProperties child.properties meta.context.filter)
    match addNonProject env fuel parentId path child1 meta st with
    | .err e s => .err e s
    | .fatal m => .fatal m
    | .ok (_, meta1, st1) =>
      addNonProjectChildren env fuel parentId path rest meta1 st1

end

mutual

/-- Embedding of `add_project_instances` (write.rs, lines 485-547):
synthesize a project node for the new instance, record it in the tree with a
project source, recurse over the children into the synthesized node, and
insert the node into the parent node's child map. -/
def addProjectInstances (env : Env) (fuel : Nat) (parentId : Ref) (path : FsPath)
    (nodePath : List String) (snapshot : Snapshot) (parentNode : ProjectNode)
    (parentMeta : Meta) (tree : Tree) : ProjectNode × Tree :=
  match fuel with
  | 0 => (parentNode, tree)
  | fuel + 1 =>
    let node0 : ProjectNode := .mk (some snapshot.className) none []
      (env.serializeProperties snapshot.className snapshot.properties) none []
      (if snapshot.meta.keepUnknowns then some true else none)
    let nodePath1 := nodePath ++ [snapshot.name]
    let source := Source.projectSource snapshot.name path node0 nodePath1
    let meta := (snapshot.meta.withContext parentMeta.context).withSource source
    let snapshot1 := snapshot.withMeta meta
    let tree1 := tree.insertInstanceWithRef snapshot1.id
      ⟨snapshot1.name, snapshot1.className, snapshot1.properties, 0, []⟩ meta parentId
    let filter := meta.context.filter
    let nt := addProjectChildren env fuel parentId path nodePath1
      snapshot1.children node0 parentMeta tree1 filter
    (parentNode.setTree (insertChild parentNode.tree snapshot1.name nt.1), nt.2)

/-- The children loop of `add_project_instances`. -/
def addProjectChildren (env : Env) (fuel : Nat) (parentId : Ref) (path : FsPath)
    (nodePath : List String) (children : List Snapshot) (node : ProjectNode)
    (parentMeta : Meta) (tree : Tree) (filter : SyncbackFilter) :
    ProjectNode × Tree :=
  match children with
  | [] => (node, tree)
  | child :: rest =>
    let child1 := child.withProperties (env.validateProperties child.properties filter)
    let nt := addProjectInstances env fuel parentId path nodePath child1 node parentMeta tree
    addProjectChildren env fuel parentId path nodePath rest nt.1 parentMeta nt.2 filter

end

mutual

/-- Size of a snapshot tree, used as recursion fuel for the addition
helpers. -/
def Snapshot.fuel : Snapshot → Nat
  | .mk _ _ _ _ _ cs => 1 + Snapshot.fuelList cs

def Snapshot.fuelList : List Snapshot → Nat
  | [] => 0
  | c :: rest => Snapshot.fuel c + Snapshot.fuelList rest

end

/-- Embedding of `apply_addition` (write.rs, lines 38-620): no-op with a
warning when the parent is absent or the filter excludes the new instance's
name or class; otherwise branch on the parent's source kind. -/
def apply_addition (env : Env) (added : AddedSnapshot) (st : WState) : WriteResult :=
  if !(st.tree.existsRef added.parent) then .ok st.warn
  else
    let parentId := added.parent
    let snap := added.toSnapshot
    match st.tree.getMeta parentId with
    | none => .fatal "apply_addition: parent meta missing"
    | some parentMeta =>
      let filter := parentMeta.context.filter
      if filter.matchesName snap.name || filter.matchesClass snap.className then
        .ok st.warn
      else
        let snap := snap.withProperties (env.validateProperties snap.properties filter)
        match parentMeta.source.kind with
        | .path path =>
          match addNonProject env snap.fuel parentId path snap parentMeta st with
          | .err e s => .err e s
          | .fatal m => .fatal m
          | .ok (parentSource, parentMeta1, st1) =>
            .ok { st1 with
              tree := st1.tree.updateMeta parentId (parentMeta1.setSource parentSource) }
        | .project name path node nodePath =>
          match node.path with
          | some customPath =>
            let custom := resolveCustomPath path customPath
            match addNonProject env snap.fuel parentId custom snap parentMeta st with
            | .err e s => .err e s
            | .fatal m => .fatal m
            | .ok (parentSource, parentMeta1, st1) =>
              let parentSource1 := (Source.projectSource name path node nodePath).withRelevant
                parentSource.relevant
              .ok { st1 with
                tree := st1.tree.updateMeta parentId (parentMeta1.setSource parentSource1) }
          | none =>
            match Project.load env path st.vfs with
            | .error e => .err e st
            | .ok project =>
              match project.findNodeByPath nodePath with
              | none => .err ("Failed to find project node with path " ++ toString nodePath) st
              | some parentNode =>
                let nt := addProjectInstances env snap.fuel parentId path nodePath snap
                  parentNode parentMeta st.tree
                let project1 := project.updateAt nodePath nt.1
                .ok { tree := nt.2,
                      vfs := st.vfs.write path (env.encodeProject project1),
                      warnings := st.warnings }
        | .none => .fatal "apply_addition: parent has no source"

/-- Embedding of the update-side `locate_instance_data` (write.rs, lines
663-698): the recorded data entry when there is one, else the first
instance-data sync rule that locates a path (callers log the warning when
the result is `none`). -/
def locateInstanceDataUpd (meta : Meta) (name : String) (path : FsPath)
    (vfs : Vfs) : Option FsPath :=
  match meta.source.getData with
  | some d => some d.path
  | none =>
    (meta.context.syncRulesOfType .instanceData).findSome?
      (fun (r : SyncRule) => r.locate path name (vfs.isDir path))

/-- Replace the path of the first file entry (`get_file_mut`). -/
def replaceFirstFile : List SourceEntry → FsPath → List SourceEntry
  | [], _ => []
  | .file _ :: rest, p => .file p :: rest
  | e :: rest, p => e :: replaceFirstFile rest p

def Source.replaceFilePath (s : Source) (p : FsPath) : Source :=
  { s with relevant := replaceFirstFile s.relevant p }

/-- Replace the path of the first folder entry (`get_folder_mut`). -/
def replaceFirstFolder : List SourceEntry → FsPath → List SourceEntry
  | [], _ => []
  | .folder _ :: rest, p => .folder p :: rest
  | e :: rest, p => e :: replaceFirstFolder rest p

def Source.replaceFolderPath (s : Source) (p : FsPath) : Source :=
  { s with relevant := replaceFirstFolder s.relevant p }

/-- Retarget every file/data entry into a renamed folder
(`new_path.join(path_entry.get_name())`). -/
def retargetEntries (newPath : FsPath) : List SourceEntry → List SourceEntry
  | [] => []
  | .file p :: rest => .file (newPath ++ [p.getName]) :: retargetEntries newPath rest
  | .data p :: rest => .data (newPath ++ [p.getName]) :: retargetEntries newPath rest
  | e :: rest => e :: retargetEntries newPath rest

/-- The per-entry rename loop of the leaf rename path of `apply_update`
(write.rs, lines 947-977): rename each file/data entry via `rename_path`,
skipping (with a warning) entries whose old and new paths are both
filtered. -/
def renameEntriesLoop (env : Env) (filter : SyncbackFilter)
    (oldName newName : String) :
    List SourceEntry → Vfs → Nat → List SourceEntry × Vfs × Nat
  | [], vfs, w => ([], vfs, w)
  | e :: rest, vfs, w =>
    match e with
    | .file p =>
      let np := env.renamePath p oldName newName
      if filter.matchesPath p && filter.matchesPath np then
        let r := renameEntriesLoop env filter oldName newName rest vfs (w + 1)
        (e :: r.1, r.2.1, r.2.2)
      else
        let r := renameEntriesLoop env filter oldName newName rest (vfs.rename p np) w
        (SourceEntry.file np :: r.1, r.2.1, r.2.2)
    | .data p =>
      let np := env.renamePath p oldName newName
      if filter.matchesPath p && filter.matchesPath np then
        let r := renameEntriesLoop env filter oldName newName rest vfs (w + 1)
        (e :: r.1, r.2.1, r.2.2)
      else
        let r := renameEntriesLoop env filter oldName newName rest (vfs.rename p np) w
        (SourceEntry.data np :: r.1, r.2.1, r.2.2)
    | _ =>
      let r := renameEntriesLoop env filter oldName newName rest vfs w
      (e :: r.1, r.2.1, r.2.2)

/-- The original-name patch of the name-change section (write.rs, lines
979-996): when only the name changed and the filesystem-safe name diverges,
rewrite just the sidecar's stored original name via `write_original_name`;
the data path is located first (a warning when it cannot be) and skipped
with a warning when filtered. -/
def origNamePatch (env : Env) (filter : SyncbackFilter) (changed : Bool)
    (name2 : String) (path2 : FsPath) (meta4 : Meta) (st1 : WState) :
    SectionRes WState :=
  if changed then
    match locateInstanceDataUpd meta4 name2 path2 st1.vfs with
    | some dataPath =>
      if filter.matchesPath dataPath then .cont st1.warn
      else
        match write_original_name env dataPath meta4 st1.vfs with
        | .ok vfs2 => .cont { st1 with vfs := vfs2 }
        | .error e => .exitErr e st1
    | none => .cont st1.warn
  else .cont st1

/-- The name-change section of the `Path` arm of `apply_update` (write.rs,
lines 871-1000): verify the new name and the renamed path, update the source
kind, rename the folder (retargeting the relevant entries) or each relevant
entry, patch the sidecar's original name when only the name changed, and
update the instance's name. -/
def pathNameSection (env : Env) (u : UpdatedSnapshot) (path0 : FsPath)
    (inst : Inst) (meta : Meta) (st : WState) :
    SectionRes (FsPath × Inst × Meta × WState) :=
  match u.name with
  | none => .cont (path0, inst, meta, st)
  | some name0 =>
    let originalName := meta.originalName
    match env.verifyName name0 meta with
    | none => .exitOk st
    | some (name1, meta1) =>
      let path1 := env.renamePath path0 inst.name name1
      match env.verifyPath path1 name1 meta1 st.vfs with
      | none => .exitOk st
      | some (path2, name2, meta2) =>
        let meta3 := meta2.setSourceKind (.path path2)
        let filter := meta3.context.filter
        let afterRename : Meta × WState :=
          match meta3.source.getFolder with
          | some folderEntry =>
            let current := folderEntry.path
            let newPath := current.withFileName name2
            if filter.matchesPath current && filter.matchesPath newPath then
              (meta3, st.warn)
            else
              let src1 := meta3.source.replaceFolderPath newPath
              let src2 := { src1 with relevant := retargetEntries newPath src1.relevant }
              (meta3.setSource src2, { st with vfs := st.vfs.rename current newPath })
          | none =>
            let r := renameEntriesLoop env filter inst.name name2
              meta3.source.relevant st.vfs st.warnings
            (meta3.setSource { meta3.source with relevant := r.1 },
              { st with vfs := r.2.1, warnings := r.2.2 })
        let meta4 := afterRename.1
        let st1 := afterRename.2
        let afterOrig : SectionRes WState :=
          origNamePatch env filter
            (originalName != meta4.originalName && u.properties.isNone)
            name2 path2 meta4 st1
        match afterOrig with
        | .exitErr e s => .exitErr e s
        | .exitOk s => .exitOk s
        | .cont st2 =>
          .cont (path2, { inst with name := meta4.originalName.getD name2 }, meta4, st2)

/-- The shared tail of `update_non_project_properties` once the main file
path is settled (write.rs, lines 794-832): write the content through the
middleware, then the sidecar through `write_data` (skipped with a warning
when the data path is filtered or could not be located). -/
def updAfterFile (env : Env) (middleware : MiddlewareKind) (path : FsPath)
    (properties : Properties) (inst : Inst) (filePath? : Option FsPath)
    (meta : Meta) (st : WState) : Step (Inst × Meta × WState) :=
  match filePath? with
  | some filePath =>
    match env.middlewareWrite middleware properties filePath st.vfs with
    | .error e => .err e st
    | .ok (remaining, vfs1) =>
      let st1 := { st with vfs := vfs1 }
      match locateInstanceDataUpd meta inst.name path st1.vfs with
      | some dataPath =>
        if meta.context.filter.matchesPath dataPath then
          .ok ({ inst with properties := properties }, meta, st1.warn)
        else
          let wd := write_data env true inst.className remaining dataPath meta st1.vfs
          .ok ({ inst with properties := properties },
            meta.setSource (meta.source.setData wd.1), { st1 with vfs := wd.2 })
      | none =>
        .ok ({ inst with properties := properties }, meta, st1.warn)
  | none =>
    -- `error!` log only; the instance's properties are still updated
    .ok ({ inst with properties := properties }, meta, st)

/-- Embedding of `update_non_project_properties` (write.rs, lines 700-865):
re-resolve through the middleware, possibly relocating the main file, then
rewrite the sidecar; without middleware only the sidecar is rewritten. -/
def updateNonProjectProps (env : Env) (path : FsPath) (properties0 : Properties)
    (inst : Inst) (meta : Meta) (st : WState) : Step (Inst × Meta × WState) :=
  let filter := meta.context.filter
  if filter.matchesPath path then .ok (inst, meta, st.warn)
  else
    let properties1 := env.validateProperties properties0 filter
    match env.fromClass inst.className properties1 (!meta.context.useLegacyScripts) with
    | (some middleware, properties) =>
      let newPath := (meta.context.syncRulesOfType middleware).findSome?
        (fun (r : SyncRule) => r.locate path inst.name (st.vfs.isDir path))
      match meta.source.getFile with
      | some entry =>
        let currentPath := entry.path
        match newPath with
        | some np =>
          if currentPath != np then
            updAfterFile env middleware path properties inst (some np)
              (meta.setSource (meta.source.replaceFilePath np))
              { st with vfs := st.vfs.rename currentPath np }
          else
            updAfterFile env middleware path properties inst (some currentPath) meta st
        | none =>
          updAfterFile env middleware path properties inst (some currentPath) meta st
      | none =>
        match newPath with
        | some np =>
          updAfterFile env middleware path properties inst (some np)
            (meta.setSource (meta.source.addFile np)) st
        | none =>
          updAfterFile env middleware path properties inst none meta st
    | (none, properties) =>
      match locateInstanceDataUpd meta inst.name path st.vfs with
      | some dataPath =>
        if filter.matchesPath dataPath then
          .ok ({ inst with properties := properties }, meta, st.warn)
        else
          let wd := write_data env false inst.className properties dataPath meta st.vfs
          .ok ({ inst with properties := properties },
            meta.setSource (meta.source.setData wd.1), { st with vfs := wd.2 })
      | none =>
        .ok ({ inst with properties := properties }, meta, st.warn)

/-- Clear the fields ownership of which moves to the filesystem when a
custom-path node's properties are updated (write.rs, lines 1059-1062). -/
def ProjectNode.clearForCustomPath : ProjectNode → ProjectNode
  | .mk c p t _ _ _ _ => .mk c p t [] none [] none

/-- Set the serialized properties and reset tags/keep-unknowns when an
inline project node's properties are updated (write.rs, lines 1076-1082). -/
def ProjectNode.setSerialized (n : ProjectNode)
    (props : List (String × UnresolvedValue)) : ProjectNode :=
  match n with
  | .mk c p t _ a _ _ => .mk c p t props a [] none

/-- The `Path` arm of `apply_update` (write.rs, lines 869-1028): name
section, then properties, then the meta write-back, then the fatal
class/meta protocol checks. -/
def applyUpdatePath (env : Env) (u : UpdatedSnapshot) (path0 : FsPath)
    (inst : Inst) (meta : Meta) (st : WState) : WriteResult :=
  match pathNameSection env u path0 inst meta st with
  | .exitOk s => .ok s
  | .exitErr e s => .err e s
  | .cont (path1, inst1, meta1, st1) =>
    let propsRes : Step (Inst × Meta × WState) :=
      match u.properties with
      | some properties => updateNonProjectProps env path1 properties inst1 meta1 st1
      | none => .ok (inst1, meta1, st1)
    match propsRes with
    | .err e s => .err e s
    | .fatal m => .fatal m
    | .ok (inst2, meta2, st2) =>
      let st3 := { st2 with
        tree := (st2.tree.setInstance u.id inst2).updateMeta u.id meta2 }
      if u.className.isSome then
        .fatal "apply_update: received unexpected class update"
      else if u.meta.isSome then
        .fatal "apply_update: received unexpected meta update"
      else .ok st3

/-- The `Project` arm of `apply_update` (write.rs, lines 1030-1154): load
the document, update properties (delegating to the path logic when the node
has a custom path), apply the name change afterwards, write back and save,
then the fatal class/meta protocol checks. -/
def applyUpdateProject (env : Env) (u : UpdatedSnapshot) (name0 : String)
    (ppath : FsPath) (node : ProjectNode) (npath : List String) (inst : Inst)
    (meta : Meta) (st : WState) : WriteResult :=
  match Project.load env ppath st.vfs with
  | .error e => .err e st
  | .ok project0 =>
    let propsStep : Step (Project × Inst × Meta × WState) :=
      match u.properties with
      | none => .ok (project0, inst, meta, st)
      | some properties =>
        match node.path with
        | some customPath =>
          let custom := resolveCustomPath ppath customPath
          match updateNonProjectProps env custom properties inst meta st with
          | .err e s => .err e s
          | .fatal m => .fatal m
          | .ok (inst1, meta1, st1) =>
            match project0.findNodeByPath npath with
            | none => .err ("Failed to find project node with path " ++ toString npath) st1
            | some n =>
              .ok (project0.updateAt npath n.clearForCustomPath, inst1, meta1, st1)
        | none =>
          match project0.findNodeByPath npath with
          | none => .err ("Failed to find project node with path " ++ toString npath) st
          | some n =>
            let cls := n.className.getD name0
            let properties1 := env.validateProperties properties meta.context.filter
            let n1 := n.setSerialized (env.serializeProperties cls properties1)
            .ok (project0.updateAt npath n1,
              { inst with properties := properties1 }, meta, st)
    match propsStep with
    | .err e s => .err e s
    | .fatal m => .fatal m
    | .ok (project1, inst1, meta1, st1) =>
      let nameStep : Step (Project × Inst × Meta × WState) :=
        match u.name with
        | none => .ok (project1, inst1, meta1, st1)
        | some newName =>
          let parentNodePath := npath.dropLast
          match project1.findNodeByPath parentNodePath with
          | none =>
            .err ("Failed to find parent project node with path " ++
              toString parentNodePath) st1
          | some parentNode =>
            match lookupRemove parentNode.tree name0 with
            | (none, _) =>
              .err ("Failed to remove project node with path " ++ toString npath) st1
            | (some removedNode, rest) =>
              let parentNode1 := parentNode.setTree (insertChild rest newName removedNode)
              let project2 := project1.updateAt parentNodePath parentNode1
              let newNodePath := parentNodePath ++ [newName]
              .ok (project2, { inst1 with name := newName },
                meta1.setSourceKind (.project newName ppath removedNode newNodePath), st1)
      match nameStep with
      | .err e s => .err e s
      | .fatal m => .fatal m
      | .ok (project2, inst2, meta2, st2) =>
        let st3 := { st2 with
          tree := (st2.tree.setInstance u.id inst2).updateMeta u.id meta2 }
        let st4 := { st3 with vfs := st3.vfs.write ppath (env.encodeProject project2) }
        if u.className.isSome then
          .fatal "apply_update: received unexpected class update"
        else if u.meta.isSome then
          .fatal "apply_update: received unexpected meta update"
        else .ok st4

/-- Embedding of `apply_update` (write.rs, lines 622-1168): no-op with a
warning when the target is absent or the filter excludes the current or
incoming name/class; otherwise branch on the source kind.  A sourceless
instance is a panic. -/
def apply_update (env : Env) (u : UpdatedSnapshot) (st : WState) : WriteResult :=
  match st.tree.getInstance u.id with
  | none => .ok st.warn
  | some inst =>
    match st.tree.getMeta u.id with
    | none => .fatal "apply_update: meta missing for existing instance"
    | some meta0 =>
      let filter := meta0.context.filter
      if filter.matchesName inst.name || filter.matchesClass inst.className then
        .ok st.warn
      else if (u.name.map filter.matchesName).getD false then .ok st.warn
      else if (u.className.map filter.matchesClass).getD false then .ok st.warn
      else
        match meta0.source.kind with
        | .path p => applyUpdatePath env u p inst meta0 st
        | .project name ppath node npath =>
          applyUpdateProject env u name ppath node npath inst meta0 st
        | .none => .fatal "apply_update: attempted to update instance with no source"

/-- The relevant-entry deletion loop of `remove_non_project_instances`
(write.rs, lines 1203-1231): delete every non-project entry that exists and
is not filtered (filtered entries log a warning). -/
def removeRelevantEntries (filter : SyncbackFilter) :
    List SourceEntry → Vfs → Nat → Vfs × Nat
  | [], vfs, w => (vfs, w)
  | e :: rest, vfs, w =>
    match e with
    | .project _ => removeRelevantEntries filter rest vfs w
    | _ =>
      let p := e.path
      if vfs.pathExists p then
        if filter.matchesPath p then removeRelevantEntries filter rest vfs (w + 1)
        else removeRelevantEntries filter rest (vfs.removePath p) w
      else removeRelevantEntries filter rest vfs w

/-- Embedding of `remove_non_project_instances` (write.rs, lines 1194-1384):
delete the instance's relevant entries, then — when the instance about to be
removed is its parent's only child (the check runs before the tree removal,
so `children().len() == 1` means no child will remain) — collapse the
parent's folder back into a file: relocate the parent's main file (and
sidecar) from inside the folder to the location computed by the sync rules,
delete the folder and rewrite the parent's source. -/
def remove_non_project_instances (env : Env) (id : Ref) (meta : Meta)
    (st : WState) : Step WState :=
  let filter := meta.context.filter
  let rv := removeRelevantEntries filter meta.source.relevant st.vfs st.warnings
  let st1 : WState := { st with vfs := rv.1, warnings := rv.2 }
  match st1.tree.getInstance id with
  | none => .err "Instance has no parent or parent does not exist in tree" st1
  | some inst =>
    match st1.tree.getInstance inst.parent with
    | none => .err "Instance has no parent or parent does not exist in tree" st1
    | some parent =>
      if parent.children.length != 1 then .ok st1
      else
        let parentRef := inst.parent
        match st1.tree.getMeta parentRef with
        | none => .fatal "remove_non_project_instances: parent meta missing"
        | some pmeta =>
          match pmeta.source.kind with
          | .path folderPath =>
            let name := folderPath.getName
            match pmeta.source.getFile with
            | some fileEntry =>
              let filePathInFolder := fileEntry.path
              let fileOutside :=
                match pmeta.context.syncRules.find?
                    (fun rule => rule.matchesChild filePathInFolder) with
                | some rule => rule.locate folderPath name false
                | none => none
              match fileOutside with
              | some newPath =>
                let vfs2 := st1.vfs.rename filePathInFolder newPath
                let source0 := Source.file newPath
                let dataMove :=
                  match pmeta.source.getData with
                  | some dataEntry =>
                    match (pmeta.context.syncRulesOfType .instanceData).findSome?
                        (fun (r : SyncRule) => r.locate folderPath name false) with
                    | some newDataPath =>
                      (source0.addData newDataPath,
                        vfs2.rename dataEntry.path newDataPath)
                    | none => (source0, vfs2)
                  | none => (source0, vfs2)
                let vfs4 := dataMove.2.removePath folderPath
                let tree4 := st1.tree.updateMeta parentRef (pmeta.setSource dataMove.1)
                .ok { st1 with vfs := vfs4, tree := tree4 }
              | none => .ok st1
            | none => .ok st1
          | _ => .ok st1

/-- Embedding of `apply_removal` (write.rs, lines 1170-1444): no-op with a
warning when the target is absent or filtered; a `Path` source deletes its
disk entries (and possibly collapses the parent folder); a `Project` source
removes the node from the parent node's child map — an absent node is an
error returned to the caller — and saves the document; a sourceless
instance is a panic.  Finally the instance is removed from the tree. -/
def apply_removal (env : Env) (id : Ref) (st : WState) : WriteResult :=
  match st.tree.getInstance id with
  | none => .ok st.warn
  | some inst =>
    match st.tree.getMeta id with
    | none => .fatal "apply_removal: meta missing for existing instance"
    | some meta =>
      let filter := meta.context.filter
      if filter.matchesName inst.name || filter.matchesClass inst.className then
        .ok st.warn
      else
        match meta.source.kind with
        | .path _ =>
          match remove_non_project_instances env id meta st with
          | .err e s => .err e s
          | .fatal m => .fatal m
          | .ok st1 => .ok { st1 with tree := st1.tree.removeInstance id }
        | .project name ppath node npath =>
          match Project.load env ppath st.vfs with
          | .error e => .err e st
          | .ok project =>
            let parentNodePath := npath.dropLast
            let removed :
                Option (ProjectNode × Project) :=
              match project.findNodeByPath parentNodePath with
              | some parentNode =>
                match lookupRemove parentNode.tree name with
                | (some removedNode, rest) =>
                  some (removedNode,
                    project.updateAt parentNodePath (parentNode.setTree rest))
                | (none, _) => none
              | none => none
            match removed with
            | none =>
              .err ("apply_removal: Failed to remove instance from project node tree at path " ++
                toString parentNodePath) st
            | some (_, project1) =>
              let afterFiles : Step WState :=
                if node.path.isSome then remove_non_project_instances env id meta st
                else .ok st
              match afterFiles with
              | .err e s => .err e s
              | .fatal m => .fatal m
              | .ok st1 =>
                let st2 := { st1 with
                  vfs := st1.vfs.write ppath (env.encodeProject project1) }
                .ok { st2 with tree := st2.tree.removeInstance id }
        | .none => .fatal "apply_removal: attempted to remove instance with no source"

/-- Source produced by the folder collapse: a file source, plus the moved
sidecar when one was present. -/
def dataMoveSource (newPath : FsPath) : Option (FsPath × FsPath) → Source
  | none => Source.file newPath
  | some dc => (Source.file newPath).addData dc.2

/-- Filesystem effect of moving the sidecar during the folder collapse. -/
def dataMoveVfs (v : Vfs) : Option (FsPath × FsPath) → Vfs
  | none => v
  | some dc => v.rename dc.1 dc.2

/-! ## Concrete fixtures used by witnesses and counterexamples -/

/-- Reversibility marker for C3: the value types whose resolved variants the
reverse direction maps back to the same ambiguous shape. -/
def reversibleValueType : VariantType → Bool
  | .bool => true
  | .content => true
  | .float64 => true
  | .string => true
  | .tags => true
  | _ => false

/-- Pairwise-distinct ids of an enum descriptor's items. -/
def injectiveIds (items : List (String × Nat)) : Prop :=
  items.Pairwise (fun a b => a.2 ≠ b.2)

def filterNone : SyncbackFilter := ⟨fun _ => false, fun _ => false, fun _ => false⟩

def ctxTrivial : Context := ⟨[], filterNone, false⟩

def metaNone : Meta := ⟨⟨.none, []⟩, ctxTrivial, false, none⟩

def enumItemsTech : List (String × Nat) :=
  [("Voxel", 1), ("ShadowMap", 3), ("Compatibility", 2), ("Legacy", 0),
   ("Future", 4), ("Unified", 5), ("Experimental", 6)]

def dbEnum : ReflectionDatabase :=
  { classes := [("Lighting", ⟨[("Technology", ⟨.enum "Technology"⟩)], none⟩)],
    enums := [("Technology", ⟨enumItemsTech⟩)] }

def dbAxes : ReflectionDatabase :=
  { classes := [("ArcHandles", ⟨[("Axes", ⟨.value .axes⟩)], none⟩)], enums := [] }

def dbBool : ReflectionDatabase :=
  { classes := [("BoolValue", ⟨[("Value", ⟨.value .bool⟩)], none⟩)], enums := [] }

def envTest : Env :=
  { fromClass := fun _ props _ => (none, props),
    middlewareWrite := fun _ props _ vfs => .ok (props, vfs),
    validateProperties := fun props _ => props,
    serializeProperties := fun _ _ => [],
    verifyName := fun n m => some (n, m),
    verifyPath := fun p n m _ => some (p, n, m),
    renamePath := fun p o n => p.withFileName ((FsPath.getName p).replace o n),
    parseProject := fun _ => .error "no project parser",
    encodeProject := fun _ => "project",
    parseData := fun _ => .error "no data parser",
    rojoMode := false,
    isService := fun _ => false,
    saveMesh := fun _ => none,
    db := dbEnum }

def nodeEmptyRoot : ProjectNode := .mk (some "Folder") none [] [] none [] none

def projC2 : Project := ⟨"Proj", nodeEmptyRoot⟩

def envC2 : Env :=
  { envTest with parseProject := fun s => if s = "P2" then .ok projC2 else .error "parse" }

def metaC2 : Meta :=
  ⟨Source.projectSource "Gone" ["default.project.json"] ProjectNode.default ["Gone"],
    ctxTrivial, false, none⟩

def stC2 : WState :=
  { tree := { instances := [(5, ⟨"Gone", "Folder", [], 0, []⟩)], metas := [(5, metaC2)] },
    vfs := { files := [(["default.project.json"], "P2")], dirs := [] },
    warnings := 0 }

def ruleC1 : SyncRule :=
  { kind := .other "script",
    childPattern := none,
    locate := fun base name isDir =>
      if isDir then some (base ++ ["init.lua"])
      else some (base.withFileName (name ++ ".lua")),
    ruleMatches := fun _ => true,
    matchesChild := fun p => p.getName == "init.lua",
    getName := fun p => p.getName }

def ctxC1 : Context := ⟨[ruleC1], filterNone, false⟩

def metaFoo : Meta :=
  ⟨⟨.path ["Foo"], [.folder ["Foo"], .file ["Foo", "init.lua"]]⟩, ctxC1, false, none⟩

def metaBar : Meta :=
  ⟨⟨.path ["Foo", "Bar.lua"], [.file ["Foo", "Bar.lua"]]⟩, ctxC1, false, none⟩

def metaBaz : Meta :=
  ⟨⟨.path ["Foo", "Baz.lua"], [.file ["Foo", "Baz.lua"]]⟩, ctxC1, false, none⟩

/-- Counterexample state for C1: folder `Foo` with two children; removing
one leaves exactly one remaining child. -/
def stC1two : WState :=
  { tree :=
    { instances := [(1, ⟨"Foo", "Folder", [], 0, [2, 3]⟩),
        (2, ⟨"Bar", "Script", [], 1, []⟩), (3, ⟨"Baz", "Script", [], 1, []⟩)],
      metas := [(1, metaFoo), (2, metaBar), (3, metaBaz)] },
    vfs := { files := [(["Foo", "init.lua"], "src"), (["Foo", "Bar.lua"], "bar"),
               (["Foo", "Baz.lua"], "baz")],
             dirs := [["Foo"]] },
    warnings := 0 }

/-- Witness state for C1: folder `Foo` whose only child is about to be
removed. -/
def stC1one : WState :=
  { tree :=
    { instances := [(1, ⟨"Foo", "Folder", [], 0, [2]⟩),
        (2, ⟨"Bar", "Script", [], 1, []⟩)],
      metas := [(1, metaFoo), (2, metaBar)] },
    vfs := { files := [(["Foo", "init.lua"], "src"), (["Foo", "Bar.lua"], "bar")],
             dirs := [["Foo"]] },
    warnings := 0 }

def metaPathA : Meta := ⟨⟨.path ["A.lua"], [.file ["A.lua"]]⟩, ctxTrivial, false, none⟩

def stC4 : WState :=
  { tree := { instances := [(7, ⟨"A", "Script", [], 0, []⟩)], metas := [(7, metaPathA)] },
    vfs := { files := [(["A.lua"], "x")], dirs := [] },
    warnings := 0 }

def updC4 : UpdatedSnapshot := ⟨7, none, none, some "ModuleScript", none⟩

def dataPathC8 : FsPath := ["Foo", "Bar.data.json"]

def vfsC8 : Vfs := { files := [(dataPathC8, "old")], dirs := [] }

def vfsC9 : Vfs := { files := [(["inst", "Foo.data.json"], "")], dirs := [] }

/-! ## Helper lemmas -/

theorem lookup_filter_not_prefix (p : FsPath) (l : List (FsPath × String)) :
    (l.filter (fun e => !(p.isPrefixOf e.1))).lookup p = none := by
  induction l with
  | nil => rfl
  | cons e rest ih =>
    by_cases h : p.isPrefixOf e.1
    · simp [List.filter_cons, h, ih]
    · have hpe : (p == e.1) = false := by
        apply beq_eq_false_iff_ne.mpr
        intro hpe
        rw [← hpe] at h
        simp [List.isPrefixOf_iff_prefix] at h
      simp [List.filter_cons, h, List.lookup, hpe, ih]

/-- After `Vfs.removePath p`, no file remains at `p` itself. -/
theorem readToString_removePath_self (vfs : Vfs) (p : FsPath) :
    (vfs.removePath p).readToString p = none :=
  lookup_filter_not_prefix p vfs.files

theorem contains_filter_not_prefix (p : FsPath) (l : List FsPath) :
    (l.filter (fun d => !(p.isPrefixOf d))).contains p = false := by
  induction l with
  | nil => rfl
  | cons d rest ih =>
    by_cases h : p.isPrefixOf d
    · simp [List.filter_cons, h, ih]
    · have hpd : (p == d) = false := by
        apply beq_eq_false_iff_ne.mpr
        intro hpd
        rw [← hpd] at h
        simp [List.isPrefixOf_iff_prefix] at h
      simp only [List.filter_cons, h]
      simp only [Bool.not_false, if_true, List.contains_cons]
      rw [ih]
      simp only [Bool.or_false]
      exact hpd

/-- After `Vfs.removePath p`, the directory `p` itself is gone. -/
theorem isDir_removePath_self (vfs : Vfs) (p : FsPath) :
    (vfs.removePath p).isDir p = false :=
  contains_filter_not_prefix p vfs.dirs

theorem readToString_eq_none_of_not_exists (vfs : Vfs) (p : FsPath)
    (h : vfs.pathExists p = false) : vfs.readToString p = none := by
  unfold Vfs.pathExists Vfs.isFile at h
  rcases hl : vfs.readToString p with _ | c
  · rfl
  · rw [Vfs.readToString] at hl
    rw [hl] at h
    simp at h

/-! ## Claim theorems -/

/-- C10: `UpdatedSnapshot.is_empty` is true exactly when `name`, `class` and
`properties` are all absent; the `meta` field is ignored, so an update
carrying only a meta payload is reported as empty. -/
theorem c10_is_empty_iff :
    (∀ u : UpdatedSnapshot,
      u.is_empty = true ↔ (u.name = none ∧ u.className = none ∧ u.properties = none)) ∧
    (∀ u : UpdatedSnapshot, ∀ m : Option Meta,
      ({ u with meta := m } : UpdatedSnapshot).is_empty = u.is_empty) ∧
    (∀ id : Ref, ∀ m : Meta,
      (UpdatedSnapshot.mk id (some m) none none none).is_empty = true) := by
  refine ⟨fun u => ?_, fun u m => rfl, fun id m => rfl⟩
  simp [UpdatedSnapshot.is_empty, Option.isNone_iff_eq_none, and_assoc]

/-- C9: an existing sidecar file whose content is the empty string makes
`read_data` succeed with the default `DataSnapshot` (no class override,
empty properties, no keep-unknowns, no original name) instead of failing
with a parse error. -/
theorem c9_empty_sidecar_defaults (env : Env) (path : FsPath)
    (classArg : Option String) (vfs : Vfs) (h : vfs.readToString path = some "") :
    read_data env path classArg vfs = .ok {} := by
  unfold read_data
  rw [h]
  simp

theorem c9_empty_sidecar_defaults_witness :
    read_data envTest ["inst", "Foo.data.json"] none vfsC9 = .ok {} :=
  c9_empty_sidecar_defaults envTest ["inst", "Foo.data.json"] none vfsC9 rfl

/-- C8: when the sidecar payload would be entirely default (no class name to
record, empty property map, keep-unknowns false, no original name),
`write_data` writes nothing, removes an already-existing file at the data
path, reports `none`, and afterwards no file exists at the data path: the
empty sidecar is file absence, never an empty file. -/
theorem c8_write_data_empty (env : Env) (hasFile : Bool) (className : String)
    (properties : Properties) (path : FsPath) (meta : Meta) (vfs : Vfs)
    (hclass : hasFile = true ∨ className = "Folder")
    (hprops : properties = [])
    (hku : meta.keepUnknowns = false)
    (hon : meta.originalName = none) :
    write_data env hasFile className properties path meta vfs =
      (none, if vfs.pathExists path then vfs.removePath path else vfs) ∧
    (write_data env hasFile className properties path meta vfs).2.readToString path
      = none := by
  have hmain : write_data env hasFile className properties path meta vfs =
      (none, if vfs.pathExists path then vfs.removePath path else vfs) := by
    subst hprops
    have hclassf : (if !hasFile && className != "Folder" then some className else none)
        = (none : Option String) := by
      rcases hclass with h | h <;> simp [h]
    by_cases hv : vfs.pathExists path <;>
      simp [write_data, hku, hon, WritableData.defaultData, hclassf, hv] <;>
      (intro hf; rcases hclass with h | h
       · simp [hf] at h
       · exact h)
  refine ⟨hmain, ?_⟩
  rw [hmain]
  by_cases he : vfs.pathExists path
  · simp only [he, if_true]
    exact readToString_removePath_self vfs path
  · simp only [he, if_false]
    exact readToString_eq_none_of_not_exists vfs path (by simpa using he)

theorem qtrunc_close (m : ℚ) : |m - (qtrunc m : ℚ)| < 1 := by
  unfold qtrunc
  by_cases h : 0 ≤ m
  · rw [if_pos h, abs_of_nonneg (sub_nonneg.mpr (Int.floor_le m))]
    have := Int.lt_floor_add_one m
    linarith
  · rw [if_neg h, abs_of_nonpos (sub_nonpos.mpr (Int.le_ceil m))]
    have := Int.ceil_lt_add_one m
    linarith

theorem qtrunc_abs_le (m : ℚ) : |(qtrunc m : ℚ)| ≤ |m| := by
  unfold qtrunc
  by_cases h : 0 ≤ m
  · rw [if_pos h, abs_of_nonneg h, abs_of_nonneg]
    · exact Int.floor_le m
    · exact_mod_cast Int.floor_nonneg.mpr h
  · push_neg at h
    rw [if_neg (not_le.mpr h), abs_of_nonpos h.le, abs_of_nonpos]
    · exact neg_le_neg (Int.le_ceil m)
    · have hle : ⌈m⌉ ≤ 0 := Int.ceil_le.mpr (by exact_mod_cast h.le)
      exact_mod_cast hle

/-- C7: the reverse-direction float serialization — a finite value is
truncated to six decimal digits (the truncation moves it by less than
`10⁻⁶`, never away from zero, and leaves a multiple of `10⁻⁶`), an infinite
value is clamped to the finite sentinel `±999999999` preserving sign (and is
emitted as an integer), and a value whose truncated form has zero fractional
part is emitted as an integer literal rather than a float. -/
theorem c7_truncation_and_integer_emission :
    (∀ q : ℚ,
      truncate_number (.fin q) * 1000000 = (qtrunc (q * 1000000) : ℚ) ∧
      |q - truncate_number (.fin q)| < 1 / 1000000 ∧
      |truncate_number (.fin q)| ≤ |q|) ∧
    (truncate_number (.inf true) = 999999999 ∧
      truncate_number (.inf false) = -999999999) ∧
    (serialize_number (.inf true) = .int 999999999 ∧
      serialize_number (.inf false) = .int (-999999999)) ∧
    (∀ v : FloatVal, qfract (truncate_number v) = 0 →
      serialize_number v = .int (asI64 (truncate_number v))) ∧
    (∀ v : FloatVal, qfract (truncate_number v) ≠ 0 →
      serialize_number v = .float (truncate_number v)) := by
  have htr : ∀ q : ℚ, truncate_number (.fin q) = (qtrunc (q * 1000000) : ℚ) / 1000000 :=
    fun q => rfl
  refine ⟨fun q => ⟨?_, ?_, ?_⟩, ⟨rfl, rfl⟩, ⟨?_, ?_⟩, fun v h => ?_, fun v h => ?_⟩
  · rw [htr, div_mul_cancel₀]
    norm_num
  · rw [htr]
    have hq : q - (qtrunc (q * 1000000) : ℚ) / 1000000 =
        (q * 1000000 - (qtrunc (q * 1000000) : ℚ)) / 1000000 := by
      field_simp
    rw [hq, abs_div]
    rw [abs_of_pos (show (0 : ℚ) < 1000000 by norm_num)]
    rw [div_lt_div_iff_of_pos_right (by norm_num)]
    exact qtrunc_close (q * 1000000)
  · rw [htr, abs_div, abs_of_pos (show (0 : ℚ) < 1000000 by norm_num),
      div_le_iff₀ (by norm_num : (0 : ℚ) < 1000000)]
    calc |(qtrunc (q * 1000000) : ℚ)| ≤ |q * 1000000| := qtrunc_abs_le _
    _ = |q| * 1000000 := by
        rw [abs_mul, abs_of_pos (show (0 : ℚ) < 1000000 by norm_num)]
  · show serialize_number (.inf true) = .int 999999999
    have hf : ⌊(999999999 : ℚ)⌋ = (999999999 : ℤ) := by norm_num
    have h1 : truncate_number (.inf true) = (999999999 : ℚ) := rfl
    have h2 : qfract (999999999 : ℚ) = 0 := by
      norm_num [qfract, qtrunc, hf]
    simp only [serialize_number, h1, h2, if_pos]
    norm_num [asI64, satCast, qtrunc, hf]
  · show serialize_number (.inf false) = .int (-999999999)
    have hc : ⌈(-999999999 : ℚ)⌉ = (-999999999 : ℤ) := by
      rw [show (-999999999 : ℚ) = ((-999999999 : ℤ) : ℚ) by norm_num, Int.ceil_intCast]
    have h1 : truncate_number (.inf false) = (-999999999 : ℚ) := rfl
    have h2 : qfract (-999999999 : ℚ) = 0 := by
      norm_num [qfract, qtrunc, hc]
    simp only [serialize_number, h1, h2, if_pos]
    norm_num [asI64, satCast, qtrunc, hc]
  · simp only [serialize_number, h, if_pos]
  · simp [serialize_number, h]

/-- C6: for a property whose declared type is an enum, `resolve` requires a
string and resolves it by exact name lookup in the enum's database entry; on
mismatch (wrong shape or unknown name) the error embeds `list_examples` of
the sorted member names — all of them when there are at most five, else the
first five plus the count of the remaining options. -/
theorem c6_enum_resolution (db : ReflectionDatabase)
    (className property enumName : String) (v : AmbiguousValue)
    (ed : EnumDescriptor)
    (hdesc : find_descriptor db className property = some ⟨.enum enumName⟩)
    (henum : db.enums.lookup enumName = some ed) :
    (∀ s id, v = .string s → ed.items.lookup s = some id →
      v.resolve db className property = .ok (.enum id)) ∧
    (∀ s, v = .string s → ed.items.lookup s = none →
      v.resolve db className property =
        .error (enumError className property s enumName ed.items)) ∧
    ((∀ s, v ≠ .string s) →
      v.resolve db className property =
        .error (enumError className property v.describe enumName ed.items)) ∧
    (sortedEnumNames ed.items).Sorted (· ≤ ·) ∧
    (sortedEnumNames ed.items).Perm (ed.items.map Prod.fst) ∧
    (∀ got : String, 5 < (sortedEnumNames ed.items).length →
      enumError className property got enumName ed.items =
        "Invalid value for property " ++ className ++ "." ++ property ++ ". Got " ++
          got ++ " but expected a member of the " ++ enumName ++ " enum such as " ++
          (String.join (((sortedEnumNames ed.items).take 5).map (fun x => x ++ ", ")) ++
            "or " ++ toString ((sortedEnumNames ed.items).length - 5) ++ " more")) ∧
    (∀ got : String, ¬5 < (sortedEnumNames ed.items).length →
      enumError className property got enumName ed.items =
        "Invalid value for property " ++ className ++ "." ++ property ++ ". Got " ++
          got ++ " but expected a member of the " ++ enumName ++ " enum such as " ++
          (String.join
              (((sortedEnumNames ed.items).take ((sortedEnumNames ed.items).length - 1)).map
                (fun x => x ++ ", ")) ++
            "or " ++ ((sortedEnumNames ed.items).getLast?.getD ""))) := by
  refine ⟨?_, ?_, ?_, List.sorted_insertionSort _ _, List.perm_insertionSort _ _, ?_, ?_⟩
  · intro s id hv hl
    subst hv
    simp [AmbiguousValue.resolve, hdesc, henum, hl]
  · intro s hv hl
    subst hv
    simp [AmbiguousValue.resolve, hdesc, henum, hl]
  · intro hns
    cases v <;>
      first
        | exact absurd rfl (hns _)
        | simp [AmbiguousValue.resolve, hdesc, henum, AmbiguousValue.describe]
  · intro got hlen
    unfold enumError list_examples
    rw [Nat.min_eq_right (by omega : 5 ≤ (sortedEnumNames ed.items).length - 1),
      if_pos hlen]
  · intro got hlen
    unfold enumError list_examples
    rw [Nat.min_eq_left (by omega : (sortedEnumNames ed.items).length - 1 ≤ 5),
      if_neg hlen]

theorem c6_enum_resolution_witness :
    (AmbiguousValue.string "Nope").resolve dbEnum "Lighting" "Technology" =
      .error (enumError "Lighting" "Technology" "Nope" "Technology" enumItemsTech) :=
  (c6_enum_resolution dbEnum "Lighting" "Technology" "Technology" (.string "Nope")
    ⟨enumItemsTech⟩ rfl rfl).2.1 "Nope" rfl rfl

/-- C3 counterexample: `ArcHandles.Axes` (declared type `Axes`) accepts the
string array `["X"]`, but the reverse direction returns the resolved value
fully qualified — not an ambiguous value equivalent to the input. -/
theorem c3_roundtrip_counterexample :
    (AmbiguousValue.stringArray ["X"]).resolve dbAxes "ArcHandles" "Axes" =
      .ok (.axes 1) ∧
    UnresolvedValue.from_variant dbAxes (.axes 1) "ArcHandles" "Axes" =
      .fullyQualified (.axes 1) ∧
    (UnresolvedValue.from_variant dbAxes (.axes 1) "ArcHandles" "Axes").isAmbiguousVal
      = false :=
  ⟨rfl, rfl, rfl⟩

theorem lookup_mem {items : List (String × Nat)} {s : String} {id : Nat}
    (h : items.lookup s = some id) : (s, id) ∈ items := by
  induction items with
  | nil => cases h
  | cons e rest ih =>
    rcases e with ⟨k, i⟩
    by_cases hk : (s == k) = true
    · have hs : s = k := beq_iff_eq.mp hk
      subst hs
      simp only [List.lookup, hk] at h
      have : i = id := Option.some.inj h
      subst this
      exact List.mem_cons_self _ _
    · rw [Bool.not_eq_true] at hk
      simp only [List.lookup, hk] at h
      exact List.mem_cons_of_mem _ (ih h)

theorem findNameForId_of_lookup {items : List (String × Nat)} {s : String}
    {id : Nat} (hinj : injectiveIds items) (h : items.lookup s = some id) :
    findNameForId items id = some s := by
  induction items with
  | nil => cases h
  | cons e rest ih =>
    rcases e with ⟨k, i⟩
    rcases List.pairwise_cons.mp hinj with ⟨hhead, htail⟩
    by_cases hk : (s == k) = true
    · have hs : s = k := beq_iff_eq.mp hk
      subst hs
      simp only [List.lookup, hk] at h
      have : i = id := Option.some.inj h
      subst this
      simp [findNameForId]
    · rw [Bool.not_eq_true] at hk
      simp only [List.lookup, hk] at h
      have hne : i ≠ id := by
        have := hhead (s, id) (lookup_mem h)
        simpa using this
      simp only [findNameForId, if_neg hne]
      exact ih htail h

/-- C3 amended: the round trip does hold for accepted values whose resolved
variant has a loose reverse mapping — booleans, strings (String and Content
types), string arrays (Tags), numbers for Float64, and enum member names
when the enum's ids are pairwise distinct: for those,
`from_variant (resolve v)` is exactly `Ambiguous v`. -/
theorem c3_roundtrip_amended (db : ReflectionDatabase) (className property : String)
    (v : AmbiguousValue) (variant : Variant) (d : PropertyDescriptor)
    (hdesc : find_descriptor db className property = some d)
    (hrev : (∃ t, d.dataType = .value t ∧ reversibleValueType t = true) ∨
      (∃ enumName ed, d.dataType = .enum enumName ∧
        db.enums.lookup enumName = some ed ∧ injectiveIds ed.items))
    (hok : v.resolve db className property = .ok variant) :
    UnresolvedValue.from_variant db variant className property = .ambiguous v := by
  unfold AmbiguousValue.resolve at hok
  rw [hdesc] at hok
  dsimp only at hok
  rcases hrev with ⟨t, hdt, hrt⟩ | ⟨enumName, ed, hdt, he, hinj⟩
  · rw [hdt] at hok
    cases t <;> simp only [reversibleValueType, Bool.false_eq_true] at hrt <;>
      cases v <;> simp_all [UnresolvedValue.from_variant] <;> (subst hok; rfl)
  · rw [hdt] at hok
    dsimp only at hok
    rw [he] at hok
    cases v with
    | string s =>
      dsimp only at hok
      rcases hl : ed.items.lookup s with _ | id <;> rw [hl] at hok
      · cases hok
      · have hv : variant = .enum id := (Except.ok.inj hok).symm
        subst hv
        unfold UnresolvedValue.from_variant
        dsimp only
        rw [hdesc]
        dsimp only
        rw [hdt]
        dsimp only
        rw [he]
        dsimp only
        rw [findNameForId_of_lookup hinj hl]
    | bool b => cases hok
    | stringArray l => cases hok
    | number n => cases hok
    | array2 a b => cases hok
    | array3 a b c => cases hok

theorem c3_roundtrip_amended_witness :
    UnresolvedValue.from_variant dbBool (.bool true) "BoolValue" "Value" =
      .ambiguous (.bool true) :=
  c3_roundtrip_amended dbBool "BoolValue" "Value" (.bool true) (.bool true)
    ⟨.value .bool⟩ rfl (Or.inl ⟨.bool, rfl, rfl⟩) rfl

/-- C5: missing or filtered targets are soft — an addition whose parent is
absent or whose snapshot name/class is filtered, an update or removal whose
target is absent or filtered, each log one warning and return success with
the tree and the filesystem untouched (`.ok st.warn` changes only the
warning count). -/
theorem c5_soft_skips (env : Env) (st : WState) :
    (∀ added : AddedSnapshot, st.tree.existsRef added.parent = false →
      apply_addition env added st = .ok st.warn) ∧
    (∀ added : AddedSnapshot, ∀ pm : Meta,
      st.tree.existsRef added.parent = true →
      st.tree.getMeta added.parent = some pm →
      (pm.context.filter.matchesName added.name ||
        pm.context.filter.matchesClass added.className) = true →
      apply_addition env added st = .ok st.warn) ∧
    (∀ u : UpdatedSnapshot, st.tree.getInstance u.id = none →
      apply_update env u st = .ok st.warn) ∧
    (∀ u : UpdatedSnapshot, ∀ inst : Inst, ∀ m : Meta,
      st.tree.getInstance u.id = some inst →
      st.tree.getMeta u.id = some m →
      (m.context.filter.matchesName inst.name ||
        m.context.filter.matchesClass inst.className ||
        (u.name.map m.context.filter.matchesName).getD false ||
        (u.className.map m.context.filter.matchesClass).getD false) = true →
      apply_update env u st = .ok st.warn) ∧
    (∀ id : Ref, st.tree.getInstance id = none →
      apply_removal env id st = .ok st.warn) ∧
    (∀ id : Ref, ∀ inst : Inst, ∀ m : Meta,
      st.tree.getInstance id = some inst →
      st.tree.getMeta id = some m →
      (m.context.filter.matchesName inst.name ||
        m.context.filter.matchesClass inst.className) = true →
      apply_removal env id st = .ok st.warn) := by
  refine ⟨?_, ?_, ?_, ?_, ?_, ?_⟩
  · intro added h
    simp [apply_addition, h]
  · intro added pm h1 h2 h3
    simp only [apply_addition, h1, Bool.not_true, Bool.false_eq_true, if_false, h2]
    simp only [AddedSnapshot.toSnapshot, Snapshot.name, Snapshot.className] at h3 ⊢
    rw [h3]
    simp
  · intro u h
    simp [apply_update, h]
  · intro u inst m h1 h2 h3
    by_cases ha : m.context.filter.matchesName inst.name = true
    · simp [apply_update, h1, h2, ha]
    · by_cases hb : m.context.filter.matchesClass inst.className = true
      · simp [apply_update, h1, h2, hb]
      · by_cases hc : (u.name.map m.context.filter.matchesName).getD false = true
        · simp [apply_update, h1, h2, ha, hb, hc]
        · by_cases hd : (u.className.map m.context.filter.matchesClass).getD false = true
          · simp [apply_update, h1, h2, ha, hb, hc, hd]
          · exfalso
            simp [ha, hb, hc, hd] at h3
  · intro id h
    simp [apply_removal, h]
  · intro id inst m h1 h2 h3
    simp [apply_removal, h1, h2, h3]

theorem lookupRemove_fst (t : List (String × ProjectNode)) (name : String) :
    (lookupRemove t name).1 = t.lookup name := by
  induction t with
  | nil => rfl
  | cons e rest ih =>
    rcases e with ⟨k, v⟩
    by_cases hk : (k == name) = true
    · have hnk : (name == k) = true := by
        rw [beq_iff_eq] at hk ⊢
        exact hk.symm
      simp [lookupRemove, hk, List.lookup, hnk]
    · rw [Bool.not_eq_true] at hk
      have hnk : (name == k) = false := by
        apply beq_eq_false_iff_ne.mpr
        intro he
        rw [beq_eq_false_iff_ne] at hk
        exact hk he.symm
      simp [lookupRemove, hk, List.lookup, hnk, ih]

/-- C2 amended: when the node named by a `Project` source is absent from the
parent node's nested child map, `apply_removal` logs an error and returns a
recoverable error to the caller — it does not terminate the process (no
panic is reached). -/
theorem c2_missing_node_recoverable (env : Env) (id : Ref) (st : WState)
    (inst : Inst) (m : Meta) (name : String) (ppath : FsPath)
    (node : ProjectNode) (npath : List String) (proj : Project)
    (hinst : st.tree.getInstance id = some inst)
    (hmeta : st.tree.getMeta id = some m)
    (hf : (m.context.filter.matchesName inst.name ||
      m.context.filter.matchesClass inst.className) = false)
    (hsrc : m.source.kind = .project name ppath node npath)
    (hload : Project.load env ppath st.vfs = .ok proj)
    (hmissing : (proj.findNodeByPath npath.dropLast).bind
        (fun pn => pn.tree.lookup name) = none) :
    (apply_removal env id st).isErr = true ∧
    (apply_removal env id st).isFatal = false := by
  have hres : ∃ msg s, apply_removal env id st = .err msg s := by
    unfold apply_removal
    rw [hinst]
    dsimp only
    rw [hmeta]
    dsimp only
    rw [hf]
    simp only [Bool.false_eq_true, if_false]
    rw [hsrc]
    dsimp only
    rw [hload]
    dsimp only
    rcases hfn : proj.findNodeByPath npath.dropLast with _ | pn
    · exact ⟨_, _, rfl⟩
    · rw [hfn] at hmissing
      simp only [Option.bind_some, Option.some_bind] at hmissing
      have hlr1 : (lookupRemove pn.tree name).1 = none := by
        rw [lookupRemove_fst]
        exact hmissing
      rcases hlr : lookupRemove pn.tree name with ⟨o, rest⟩
      rw [hlr] at hlr1
      simp only at hlr1
      subst hlr1
      dsimp only
      rw [hlr]
      exact ⟨_, _, rfl⟩
  rcases hres with ⟨msg, s, h⟩
  rw [h]
  exact ⟨rfl, rfl⟩

/-- C2 counterexample: a concrete removal of a `Project`-sourced instance
whose node is absent from the parent node's child map returns a recoverable
error (`isErr`), not a process-terminating panic (`isFatal` is false) —
refuting the claim that this situation terminates the process. -/
theorem c2_counterexample :
    (apply_removal envC2 5 stC2).isErr = true ∧
    (apply_removal envC2 5 stC2).isFatal = false ∧
    (projC2.findNodeByPath (["Gone"].dropLast)).bind
      (fun pn => pn.tree.lookup "Gone") = none :=
  ⟨rfl, rfl, rfl⟩

theorem c2_missing_node_recoverable_witness :
    (apply_removal envC2 5 stC2).isErr = true ∧
    (apply_removal envC2 5 stC2).isFatal = false :=
  c2_missing_node_recoverable envC2 5 stC2 ⟨"Gone", "Folder", [], 0, []⟩ metaC2
    "Gone" ["default.project.json"] ProjectNode.default ["Gone"] projC2
    rfl rfl rfl rfl rfl rfl

theorem origNamePatch_no_exitOk (env : Env) (filter : SyncbackFilter)
    (changed : Bool) (name2 : String) (path2 : FsPath) (meta4 : Meta)
    (st1 : WState) :
    ∀ s, origNamePatch env filter changed name2 path2 meta4 st1 ≠ .exitOk s := by
  intro s
  unfold origNamePatch
  split
  · split
    · split
      · simp
      · split <;> simp
    · simp
  · simp

theorem pathNameSection_no_exitOk (env : Env) (u : UpdatedSnapshot)
    (path0 : FsPath) (inst : Inst) (meta : Meta) (st : WState)
    (hvn : ∀ n me, env.verifyName n me ≠ none)
    (hvp : ∀ p n me vfs, env.verifyPath p n me vfs ≠ none) :
    ∀ s, pathNameSection env u path0 inst meta st ≠ .exitOk s := by
  intro s
  unfold pathNameSection
  rcases hn : u.name with _ | name0
  · simp
  · dsimp only
    rcases hvn1 : env.verifyName name0 meta with _ | ⟨name1, meta1⟩
    · exact absurd hvn1 (hvn _ _)
    · dsimp only
      rcases hvp1 : env.verifyPath (env.renamePath path0 inst.name name1) name1
          meta1 st.vfs with _ | ⟨path2, name2, meta2⟩
      · exact absurd hvp1 (hvp _ _ _ _)
      · dsimp only
        split
        · simp
        · rename_i s1 heq
          exact absurd heq (origNamePatch_no_exitOk _ _ _ _ _ _ _ s1)
        · simp

theorem finalChecks_not_ok (u : UpdatedSnapshot) (st3 : WState)
    (hviol : u.className ≠ none ∨ u.meta ≠ none) :
    (if u.className.isSome then
      WriteResult.fatal "apply_update: received unexpected class update"
    else if u.meta.isSome then
      WriteResult.fatal "apply_update: received unexpected meta update"
    else WriteResult.ok st3).isOk = false := by
  rcases hviol with h | h
  · rw [if_pos (Option.ne_none_iff_isSome.mp h)]
    rfl
  · by_cases hc : u.className.isSome = true
    · rw [if_pos hc]
      rfl
    · rw [if_neg hc, if_pos (Option.ne_none_iff_isSome.mp h)]
      rfl

theorem applyUpdatePath_not_ok (env : Env) (u : UpdatedSnapshot) (path0 : FsPath)
    (inst : Inst) (meta : Meta) (st : WState)
    (hvn : ∀ n me, env.verifyName n me ≠ none)
    (hvp : ∀ p n me vfs, env.verifyPath p n me vfs ≠ none)
    (hviol : u.className ≠ none ∨ u.meta ≠ none) :
    (applyUpdatePath env u path0 inst meta st).isOk = false := by
  unfold applyUpdatePath
  split
  · rename_i s1 heq
    exact absurd heq (pathNameSection_no_exitOk env u path0 inst meta st hvn hvp _)
  · rfl
  · dsimp only
    split
    · rfl
    · rfl
    · exact finalChecks_not_ok u _ hviol

theorem applyUpdateProject_not_ok (env : Env) (u : UpdatedSnapshot)
    (name0 : String) (ppath : FsPath) (node : ProjectNode) (npath : List String)
    (inst : Inst) (meta : Meta) (st : WState)
    (hviol : u.className ≠ none ∨ u.meta ≠ none) :
    (applyUpdateProject env u name0 ppath node npath inst meta st).isOk = false := by
  unfold applyUpdateProject
  split
  · rfl
  · dsimp only
    split
    · rfl
    · rfl
    · split
      · rfl
      · rfl
      · exact finalChecks_not_ok u _ hviol

/-- C4: for an `apply_update` whose target exists, is not excluded by the
syncback filter and has a non-`None` source (with the collision-safe verify
helpers succeeding), a present `class` or `meta` field means the call never
returns success: every path ends in the `unreachable!` panic or in an
unrelated propagated error, never in `Ok`. -/
theorem c4_class_meta_update_fatal (env : Env) (u : UpdatedSnapshot) (st : WState)
    (inst : Inst) (m : Meta)
    (hinst : st.tree.getInstance u.id = some inst)
    (hmeta : st.tree.getMeta u.id = some m)
    (hf1 : (m.context.filter.matchesName inst.name ||
      m.context.filter.matchesClass inst.className) = false)
    (hf2 : (u.name.map m.context.filter.matchesName).getD false = false)
    (hf3 : (u.className.map m.context.filter.matchesClass).getD false = false)
    (hsrc : m.source.kind ≠ SourceKind.none)
    (hvn : ∀ n me, env.verifyName n me ≠ none)
    (hvp : ∀ p n me vfs, env.verifyPath p n me vfs ≠ none)
    (hviol : u.className ≠ none ∨ u.meta ≠ none) :
    (apply_update env u st).isOk = false := by
  unfold apply_update
  rw [hinst]
  dsimp only
  rw [hmeta]
  dsimp only
  rw [hf1]
  simp only [Bool.false_eq_true, if_false]
  rw [hf2]
  simp only [Bool.false_eq_true, if_false]
  rw [hf3]
  simp only [Bool.false_eq_true, if_false]
  rcases hk : m.source.kind with _ | p | ⟨name, ppath, node, npath⟩
  · exact absurd hk hsrc
  · exact applyUpdatePath_not_ok env u p inst m st hvn hvp hviol
  · exact applyUpdateProject_not_ok env u name ppath node npath inst m st hviol

theorem c4_class_meta_update_fatal_witness :
    (apply_update envTest updC4 stC4).isOk = false ∧
    (apply_update envTest updC4 stC4).isFatal = true :=
  ⟨c4_class_meta_update_fatal envTest updC4 stC4 ⟨"A", "Script", [], 0, []⟩ metaPathA
    rfl rfl rfl rfl rfl (fun h => SourceKind.noConfusion h)
    (fun n me h => Option.noConfusion h) (fun p n me vfs h => Option.noConfusion h)
    (Or.inl (fun h => Option.noConfusion h)), rfl⟩

theorem lookup_isSome_map_of (l : List (FsPath × String)) (f : FsPath → FsPath)
    (a b : FsPath) (h : (l.lookup a).isSome = true) (hf : f a = b) :
    ((l.map (fun e => (f e.1, e.2))).lookup b).isSome = true := by
  induction l with
  | nil => simp [List.lookup] at h
  | cons e rest ih =>
    rcases e with ⟨k, v⟩
    by_cases hk : (a == k) = true
    · have hak : a = k := beq_iff_eq.mp hk
      subst hak
      have hb : (b == f a) = true := by
        rw [beq_iff_eq, hf]
      simp [List.lookup, hb]
    · rw [Bool.not_eq_true] at hk
      simp only [List.lookup, hk] at h
      simp only [List.map_cons]
      by_cases hb : (b == f k) = true
      · simp [List.lookup, hb]
      · rw [Bool.not_eq_true] at hb
        simp only [List.lookup, hb]
        exact ih h

/-- Renaming `a` to `b` leaves a file at `b` when one existed at `a`. -/
theorem isFile_rename_self (vfs : Vfs) (a b : FsPath) (h : vfs.isFile a = true) :
    (vfs.rename a b).isFile b = true := by
  unfold Vfs.isFile at *
  unfold Vfs.rename
  refine lookup_isSome_map_of vfs.files (replacePrefix a b) a b h ?_
  unfold replacePrefix
  rw [if_pos]
  · simp
  · simp [List.isPrefixOf_iff_prefix]

/-- Renaming a disjoint prefix leaves a file at `b` in place. -/
theorem isFile_rename_other (vfs : Vfs) (p q b : FsPath) (h : vfs.isFile b = true)
    (hp : p.isPrefixOf b = false) : (vfs.rename p q).isFile b = true := by
  unfold Vfs.isFile at *
  unfold Vfs.rename
  refine lookup_isSome_map_of vfs.files (replacePrefix p q) b b h ?_
  unfold replacePrefix
  rw [if_neg]
  simp [hp]

theorem lookup_isSome_filter_key (l : List (FsPath × String)) (g : FsPath → Bool)
    (b : FsPath) (h : (l.lookup b).isSome = true) (hg : g b = true) :
    ((l.filter (fun e => g e.1)).lookup b).isSome = true := by
  induction l with
  | nil => simp [List.lookup] at h
  | cons e rest ih =>
    rcases e with ⟨k, v⟩
    by_cases hk : (b == k) = true
    · have hbk : b = k := beq_iff_eq.mp hk
      subst hbk
      simp [List.filter_cons, hg, List.lookup]
    · rw [Bool.not_eq_true] at hk
      simp only [List.lookup, hk] at h
      simp only [List.filter_cons]
      by_cases hgk : g k = true
      · simp only [hgk, if_true, List.lookup, hk]
        exact ih h
      · simp only [hgk, Bool.false_eq_true, if_false]
        exact ih h

/-- Removing a disjoint path leaves a file at `b` in place. -/
theorem isFile_removePath_other (vfs : Vfs) (p b : FsPath) (h : vfs.isFile b = true)
    (hp : p.isPrefixOf b = false) : (vfs.removePath p).isFile b = true := by
  unfold Vfs.isFile at *
  unfold Vfs.removePath
  exact lookup_isSome_filter_key vfs.files (fun d => !(p.isPrefixOf d)) b h (by simp [hp])

/-- After `Tree.removeInstance id`, the instance is gone. -/
theorem getInstance_removeInstance (t : Tree) (id : Ref) :
    (t.removeInstance id).getInstance id = none := by
  rcases t with ⟨ins, mets⟩
  unfold Tree.removeInstance Tree.getInstance
  dsimp only
  induction ins with
  | nil => rfl
  | cons e rest ih =>
    by_cases hk : (e.1 == id) = true
    · simp only [List.filter_cons, bne, hk, Bool.not_true, Bool.false_eq_true, if_false]
      exact ih
    · rw [Bool.not_eq_true] at hk
      have hik : (id == e.1) = false := by
        apply beq_eq_false_iff_ne.mpr
        intro hie
        rw [beq_eq_false_iff_ne] at hk
        exact hk hie.symm
      simp only [List.filter_cons, bne, hk, Bool.not_false, if_true, List.map_cons,
        List.lookup, hik]
      exact ih

/-- C1 amended: the folder collapse of `apply_removal` fires when the
instance being removed is its parent's only child (the children count is
checked before the tree removal, so one child at check time means none
remain afterwards): the parent's own main file (and sidecar, if any) is
relocated out of the folder to the location the sync rules compute, the
folder is deleted, and the parent's source becomes a file source. -/
theorem c1_collapse_amended (env : Env) (id : Ref) (st : WState)
    (inst : Inst) (m : Meta) (pInst : Inst) (pmeta : Meta)
    (folderPath fileIn newPath : FsPath) (rule : SyncRule)
    (dataCase : Option (FsPath × FsPath)) (q : FsPath)
    (hinst : st.tree.getInstance id = some inst)
    (hmeta : st.tree.getMeta id = some m)
    (hf : (m.context.filter.matchesName inst.name ||
      m.context.filter.matchesClass inst.className) = false)
    (hsrc : m.source.kind = .path q)
    (hparent : st.tree.getInstance inst.parent = some pInst)
    (hone : pInst.children.length = 1)
    (hpmeta : st.tree.getMeta inst.parent = some pmeta)
    (hpsrc : pmeta.source.kind = .path folderPath)
    (hpfile : pmeta.source.getFile = some (.file fileIn))
    (hrule : pmeta.context.syncRules.find?
      (fun r => r.matchesChild fileIn) = some rule)
    (hlocate : rule.locate folderPath folderPath.getName false = some newPath)
    (hdata : pmeta.source.getData =
      dataCase.map (fun dc => SourceEntry.data dc.1))
    (hd2 : ∀ dc, dataCase = some dc →
      (pmeta.context.syncRulesOfType .instanceData).findSome?
        (fun (r : SyncRule) => r.locate folderPath folderPath.getName false) =
        some dc.2)
    (hfl : ((removeRelevantEntries m.context.filter m.source.relevant
      st.vfs st.warnings).1).isFile fileIn = true)
    (hnp : folderPath.isPrefixOf newPath = false)
    (hdn : ∀ dc, dataCase = some dc → dc.1.isPrefixOf newPath = false) :
    apply_removal env id st =
      .ok { tree := (st.tree.updateMeta inst.parent
              (pmeta.setSource (dataMoveSource newPath dataCase))).removeInstance id,
            vfs := (dataMoveVfs ((removeRelevantEntries m.context.filter
              m.source.relevant st.vfs st.warnings).1.rename fileIn newPath)
              dataCase).removePath folderPath,
            warnings := (removeRelevantEntries m.context.filter m.source.relevant
              st.vfs st.warnings).2 } ∧
    (∀ s, apply_removal env id st = .ok s →
      s.vfs.isDir folderPath = false ∧ s.vfs.isFile newPath = true ∧
      s.tree.getInstance id = none) := by
  have hrnp : remove_non_project_instances env id m st = Step.ok
      { tree := st.tree.updateMeta inst.parent
          (pmeta.setSource (dataMoveSource newPath dataCase)),
        vfs := (dataMoveVfs ((removeRelevantEntries m.context.filter
          m.source.relevant st.vfs st.warnings).1.rename fileIn newPath)
          dataCase).removePath folderPath,
        warnings := (removeRelevantEntries m.context.filter m.source.relevant
          st.vfs st.warnings).2 } := by
    unfold remove_non_project_instances
    dsimp only
    rw [hinst]
    dsimp only
    rw [hparent]
    dsimp only
    rw [hone]
    simp only [bne_self_eq_false, Bool.false_eq_true, if_false]
    rw [hpmeta]
    dsimp only
    rw [hpsrc]
    dsimp only
    rw [hpfile]
    dsimp only [SourceEntry.path]
    rw [hrule]
    dsimp only
    rw [hlocate]
    dsimp only
    rcases dataCase with _ | ⟨dIn, dNew⟩
    · dsimp only [Option.map] at hdata
      rw [hdata]
      rfl
    · dsimp only [Option.map] at hdata
      rw [hdata]
      dsimp only [SourceEntry.path]
      rw [hd2 (dIn, dNew) rfl]
      rfl
  have hmain : apply_removal env id st =
      .ok { tree := (st.tree.updateMeta inst.parent
              (pmeta.setSource (dataMoveSource newPath dataCase))).removeInstance id,
            vfs := (dataMoveVfs ((removeRelevantEntries m.context.filter
              m.source.relevant st.vfs st.warnings).1.rename fileIn newPath)
              dataCase).removePath folderPath,
            warnings := (removeRelevantEntries m.context.filter m.source.relevant
              st.vfs st.warnings).2 } := by
    unfold apply_removal
    rw [hinst]
    dsimp only
    rw [hmeta]
    dsimp only
    rw [hf]
    simp only [Bool.false_eq_true, if_false]
    rw [hsrc]
    dsimp only
    rw [hrnp]
  refine ⟨hmain, ?_⟩
  intro s hs
  rw [hmain] at hs
  have hseq := (WriteResult.ok.inj hs).symm
  subst hseq
  refine ⟨isDir_removePath_self _ _, ?_, getInstance_removeInstance _ _⟩
  rcases dataCase with _ | ⟨dIn, dNew⟩
  · dsimp only [dataMoveVfs]
    exact isFile_removePath_other _ _ _ (isFile_rename_self _ _ _ hfl) hnp
  · dsimp only [dataMoveVfs]
    exact isFile_removePath_other _ _ _
      (isFile_rename_other _ _ _ _ (isFile_rename_self _ _ _ hfl)
        (hdn (dIn, dNew) rfl)) hnp

/-- C1 counterexample: folder `Foo` holds two children; removing one leaves
exactly one remaining child (`Bar`), yet no collapse happens — the folder
still exists, the remaining child's file is untouched inside it, and the
parent keeps its folder source — refuting the claim that a removal leaving
exactly one child collapses the folder. -/
theorem c1_collapse_counterexample :
    (apply_removal envTest 3 stC1two).isOk = true ∧
    (match apply_removal envTest 3 stC1two with
     | .ok s =>
       s.vfs.isDir ["Foo"] && s.vfs.isFile ["Foo", "Bar.lua"] &&
         !(s.vfs.isFile ["Foo", "Baz.lua"]) && !(s.vfs.isFile ["Foo.lua"]) &&
         !(s.vfs.isFile ["Foo"]) &&
         (s.tree.getInstance 3).isNone &&
         ((s.tree.getInstance 1).map (fun i => i.children) == some [2]) &&
         (match (s.tree.getMeta 1).map (fun mm => mm.source.kind) with
          | some (SourceKind.path p) => p == ["Foo"]
          | _ => false)
     | _ => false) = true :=
  ⟨rfl, rfl⟩

theorem c1_collapse_amended_witness :
    apply_removal envTest 2 stC1one =
      .ok { tree := (stC1one.tree.updateMeta 1
              (metaFoo.setSource (Source.file ["Foo.lua"]))).removeInstance 2,
            vfs := ((removeRelevantEntries metaBar.context.filter
              metaBar.source.relevant stC1one.vfs 0).1.rename
                ["Foo", "init.lua"] ["Foo.lua"]).removePath ["Foo"],
            warnings := (removeRelevantEntries metaBar.context.filter
              metaBar.source.relevant stC1one.vfs 0).2 } :=
  (c1_collapse_amended envTest 2 stC1one ⟨"Bar", "Script", [], 1, []⟩ metaBar
    ⟨"Foo", "Folder", [], 0, [2]⟩ metaFoo ["Foo"] ["Foo", "init.lua"] ["Foo.lua"]
    ruleC1 none ["Foo", "Bar.lua"] rfl rfl rfl rfl rfl rfl rfl rfl rfl rfl rfl
    rfl (fun dc h => Option.noConfusion h) rfl rfl
    (fun dc h => Option.noConfusion h)).1

theorem c8_write_data_empty_witness :
    (write_data envTest true "Part" [] dataPathC8 metaNone vfsC8 =
      (none, if vfsC8.pathExists dataPathC8 then vfsC8.removePath dataPathC8 else vfsC8) ∧
    (write_data envTest true "Part" [] dataPathC8 metaNone vfsC8).2.readToString dataPathC8
      = none) :=
  c8_write_data_empty envTest true "Part" [] dataPathC8 metaNone vfsC8
    (Or.inl rfl) rfl rfl rfl

end Argon
